import Mathlib

/-!
# Verification of the flocking simulation core

Shallow embedding of the flocking screensaver's simulation kernel:
`Vector2D`, `Bird` (seek / separate / align / cohesion / environmentalBias /
update / borders) and `FlockingSystem` (updateSerial / updateParallel /
removeBoids / getCoherence).

Floating-point values are modelled as real numbers (exact arithmetic);
`sqrtf` is modelled by `Real.sqrt`.  Presentation-only fields (the per-bird
colour bytes) are omitted: no simulation code reads them.  In-place C++
mutators (`normalize`, `limit`, `+=`, `*=`, ...) are modelled as pure
functions returning the written value.
-/

namespace Flocking

noncomputable section

/-- The 2D vector value type of the source (`struct Vector2D`). -/
@[ext]
structure Vector2D where
  x : ℝ
  y : ℝ

instance : Add Vector2D := ⟨fun a b => ⟨a.x + b.x, a.y + b.y⟩⟩

instance : Sub Vector2D := ⟨fun a b => ⟨a.x - b.x, a.y - b.y⟩⟩

instance : Zero Vector2D := ⟨⟨0, 0⟩⟩

instance : Inhabited Vector2D := ⟨⟨0, 0⟩⟩

/-- `operator*(float scalar)` / `operator*=`: scale by a scalar. -/
def Vector2D.smul (v : Vector2D) (c : ℝ) : Vector2D := ⟨v.x * c, v.y * c⟩

/-- `operator/(float scalar)` / `operator/=`: divide by a scalar. -/
def Vector2D.sdiv (v : Vector2D) (c : ℝ) : Vector2D := ⟨v.x / c, v.y / c⟩

/-- `magnitude()`: `sqrt(x*x + y*y)`. -/
def Vector2D.magnitude (v : Vector2D) : ℝ := Real.sqrt (v.x * v.x + v.y * v.y)

/-- In-place `normalize()`: divide by the magnitude, guarded by `mag > 0`. -/
def Vector2D.normalize (v : Vector2D) : Vector2D :=
  if 0 < v.magnitude then ⟨v.x / v.magnitude, v.y / v.magnitude⟩ else v

/-- In-place `limit(maxMag)`: clamp the magnitude; no-op when already within. -/
def Vector2D.limit (v : Vector2D) (maxMag : ℝ) : Vector2D :=
  if maxMag < v.magnitude then (v.normalize).smul maxMag else v

/-- Static `distance(a, b)`: `(a - b).magnitude()`. -/
def Vector2D.distance (a b : Vector2D) : ℝ := (a - b).magnitude

/-- The copy-returning `normalized()` of the source.  Its body is
`Vector2D result = *this; result.normalized(); return result;` — the call is
to `normalized()` itself (not `normalize()`), so the function recurses on the
unchanged copy.  The recursion is modelled with explicit fuel: `none` means
the call has not returned within `fuel` nested activations. -/
def Vector2D.normalizedFuel : ℕ → Vector2D → Option Vector2D
  | 0, _ => none
  | fuel + 1, v =>
    match Vector2D.normalizedFuel fuel v with
    | none => none
    | some _ => some v

/-- The intended `normalized()` (what the sibling in-place `normalize` does
to the copy); used to state what the source slipped away from. -/
def Vector2D.normalizedIntended (v : Vector2D) : Vector2D := v.normalize

@[simp] lemma vadd_x (a b : Vector2D) : (a + b).x = a.x + b.x := rfl

@[simp] lemma vadd_y (a b : Vector2D) : (a + b).y = a.y + b.y := rfl

@[simp] lemma vsub_x (a b : Vector2D) : (a - b).x = a.x - b.x := rfl

@[simp] lemma vsub_y (a b : Vector2D) : (a - b).y = a.y - b.y := rfl

@[simp] lemma vzero_x : (0 : Vector2D).x = 0 := rfl

@[simp] lemma vzero_y : (0 : Vector2D).y = 0 := rfl

@[simp] lemma smul_x (v : Vector2D) (c : ℝ) : (v.smul c).x = v.x * c := rfl

@[simp] lemma smul_y (v : Vector2D) (c : ℝ) : (v.smul c).y = v.y * c := rfl

@[simp] lemma sdiv_x (v : Vector2D) (c : ℝ) : (v.sdiv c).x = v.x / c := rfl

@[simp] lemma sdiv_y (v : Vector2D) (c : ℝ) : (v.sdiv c).y = v.y / c := rfl

lemma magnitude_nonneg (v : Vector2D) : 0 ≤ v.magnitude := Real.sqrt_nonneg _

lemma sq_sum_nonneg (v : Vector2D) : 0 ≤ v.x * v.x + v.y * v.y :=
  add_nonneg (mul_self_nonneg _) (mul_self_nonneg _)

lemma magnitude_sq (v : Vector2D) :
    v.magnitude * v.magnitude = v.x * v.x + v.y * v.y :=
  Real.mul_self_sqrt (sq_sum_nonneg v)

lemma magnitude_eq_zero_iff (v : Vector2D) : v.magnitude = 0 ↔ v = 0 := by
  unfold Vector2D.magnitude
  constructor
  · intro h
    have h0 : v.x * v.x + v.y * v.y ≤ 0 := Real.sqrt_eq_zero'.mp h
    have hx : v.x = 0 := by nlinarith [mul_self_nonneg v.x, mul_self_nonneg v.y]
    have hy : v.y = 0 := by nlinarith [mul_self_nonneg v.x, mul_self_nonneg v.y]
    ext <;> simp [hx, hy]
  · intro h; subst h; simp [Real.sqrt_eq_zero']

lemma magnitude_pos_iff (v : Vector2D) : 0 < v.magnitude ↔ v ≠ 0 := by
  rw [lt_iff_le_and_ne, ne_comm]
  simp [magnitude_nonneg, magnitude_eq_zero_iff]

lemma magnitude_zero : (0 : Vector2D).magnitude = 0 := by
  simp [Vector2D.magnitude]

lemma magnitude_smul (v : Vector2D) (c : ℝ) :
    (v.smul c).magnitude = |c| * v.magnitude := by
  unfold Vector2D.magnitude Vector2D.smul
  rw [show v.x * c * (v.x * c) + v.y * c * (v.y * c)
        = (c * c) * (v.x * v.x + v.y * v.y) by ring,
    Real.sqrt_mul (mul_self_nonneg c), Real.sqrt_mul_self_eq_abs]

lemma magnitude_normalize (v : Vector2D) (h : v ≠ 0) :
    (v.normalize).magnitude = 1 := by
  have hm : 0 < v.magnitude := (magnitude_pos_iff v).mpr h
  have hms : 0 < v.x * v.x + v.y * v.y := by
    have := magnitude_sq v
    nlinarith
  unfold Vector2D.normalize
  rw [if_pos hm]
  show Real.sqrt (v.x / v.magnitude * (v.x / v.magnitude)
    + v.y / v.magnitude * (v.y / v.magnitude)) = 1
  rw [show v.x / v.magnitude * (v.x / v.magnitude) + v.y / v.magnitude * (v.y / v.magnitude)
        = (v.x * v.x + v.y * v.y) / (v.magnitude * v.magnitude) by ring,
    magnitude_sq, div_self (ne_of_gt hms)]
  exact Real.sqrt_one

lemma magnitude_neg_eq (v : Vector2D) : (⟨-v.x, -v.y⟩ : Vector2D).magnitude = v.magnitude := by
  unfold Vector2D.magnitude
  ring_nf

/-- Triangle inequality for the source's `magnitude`. -/
lemma magnitude_add_le (v w : Vector2D) :
    (v + w).magnitude ≤ v.magnitude + w.magnitude := by
  have hvw : v.x * w.x + v.y * w.y ≤ v.magnitude * w.magnitude := by
    have hcs : (v.x * w.x + v.y * w.y) * (v.x * w.x + v.y * w.y)
        ≤ (v.x * v.x + v.y * v.y) * (w.x * w.x + w.y * w.y) := by
      nlinarith [sq_nonneg (v.x * w.y - v.y * w.x)]
    have h1 : v.x * w.x + v.y * w.y ≤ |v.x * w.x + v.y * w.y| := le_abs_self _
    have h2 : |v.x * w.x + v.y * w.y|
        = Real.sqrt ((v.x * w.x + v.y * w.y) * (v.x * w.x + v.y * w.y)) :=
      (Real.sqrt_mul_self_eq_abs _).symm
    have h3 : Real.sqrt ((v.x * w.x + v.y * w.y) * (v.x * w.x + v.y * w.y))
        ≤ Real.sqrt ((v.x * v.x + v.y * v.y) * (w.x * w.x + w.y * w.y)) :=
      Real.sqrt_le_sqrt hcs
    have h4 : Real.sqrt ((v.x * v.x + v.y * v.y) * (w.x * w.x + w.y * w.y))
        = v.magnitude * w.magnitude := by
      rw [Real.sqrt_mul (sq_sum_nonneg v)]; rfl
    linarith
  have hsum : (v + w).magnitude * (v + w).magnitude
      ≤ (v.magnitude + w.magnitude) * (v.magnitude + w.magnitude) := by
    rw [magnitude_sq]
    have := magnitude_sq v
    have := magnitude_sq w
    simp only [vadd_x, vadd_y]
    nlinarith
  nlinarith [magnitude_nonneg (v + w), magnitude_nonneg v, magnitude_nonneg w,
    add_nonneg (magnitude_nonneg v) (magnitude_nonneg w)]

/-- After `limit(maxMag)` with a non-negative bound, the magnitude is within it. -/
lemma magnitude_limit_le (v : Vector2D) (m : ℝ) (hm : 0 ≤ m) :
    (v.limit m).magnitude ≤ m := by
  unfold Vector2D.limit
  split_ifs with h
  · have hv : v ≠ 0 := by
      rw [← magnitude_pos_iff]; linarith
    rw [magnitude_smul, magnitude_normalize v hv, mul_one, abs_of_nonneg hm]
  · linarith [not_lt.mp h]

/-- `limit` is a no-op when the magnitude is already within the bound. -/
lemma limit_noop (v : Vector2D) (m : ℝ) (h : v.magnitude ≤ m) : v.limit m = v := by
  unfold Vector2D.limit
  exact if_neg (not_lt.mpr h)

/-- The magnitude after `limit` never exceeds `max` of the original and the bound. -/
lemma magnitude_limit_le_max (v : Vector2D) (m : ℝ) (hm : 0 ≤ m) :
    (v.limit m).magnitude ≤ max v.magnitude m :=
  le_trans (magnitude_limit_le v m hm) (le_max_right _ _)

/-- A single boid (`class Bird`).  The colour bytes (`red`/`green`/`blue`/
`alpha`) are presentation-only and omitted; the constructor's random initial
state is irrelevant to the verified operations, so `Bird` is a plain record. -/
structure Bird where
  position : Vector2D
  velocity : Vector2D
  acceleration : Vector2D
  r : ℝ
  maxSpeed : ℝ
  maxForce : ℝ
  separationRadius : ℝ
  alignmentRadius : ℝ
  cohesionRadius : ℝ

instance : Inhabited Bird := ⟨⟨0, 0, 0, 0, 0, 0, 0, 0, 0⟩⟩

/-- `Bird::update()`: `velocity += acceleration; velocity.limit(maxSpeed);
position += velocity; acceleration *= 0;`. -/
def Bird.update (b : Bird) : Bird :=
  let v := (b.velocity + b.acceleration).limit b.maxSpeed
  { b with velocity := v, position := b.position + v,
           acceleration := b.acceleration.smul 0 }

/-- `Bird::seek(target)`: steer toward `target` at `maxSpeed`, clamped. -/
def Bird.seek (b : Bird) (target : Vector2D) : Vector2D :=
  let desired := ((target - b.position).normalize).smul b.maxSpeed
  (desired - b.velocity).limit b.maxForce

/-- One neighbour step of `Bird::separate`'s accumulation loop. -/
def sepStep (b : Bird) (acc : Vector2D × ℕ) (other : Bird) : Vector2D × ℕ :=
  let d := Vector2D.distance b.position other.position
  if 0 < d ∧ d < b.separationRadius then
    (acc.1 + ((b.position - other.position).normalize).sdiv d, acc.2 + 1)
  else acc

/-- The accumulated `(steer, count)` pair of `Bird::separate`'s loop. -/
def sepAcc (b : Bird) (birds : List Bird) : Vector2D × ℕ :=
  birds.foldl (sepStep b) (0, 0)

/-- `Bird::separate(birds)`. -/
def Bird.separate (b : Bird) (birds : List Bird) : Vector2D :=
  let s := sepAcc b birds
  if 0 < s.2 then
    let steer := s.1.sdiv (s.2 : ℝ)
    if 0 < steer.magnitude then
      (((steer.normalize).smul b.maxSpeed) - b.velocity).limit b.maxForce
    else steer
  else s.1

/-- One neighbour step of `Bird::align`'s accumulation loop. -/
def aliStep (b : Bird) (acc : Vector2D × ℕ) (other : Bird) : Vector2D × ℕ :=
  let d := Vector2D.distance b.position other.position
  if 0 < d ∧ d < b.alignmentRadius then (acc.1 + other.velocity, acc.2 + 1)
  else acc

/-- The accumulated `(sum, count)` pair of `Bird::align`'s loop. -/
def aliAcc (b : Bird) (birds : List Bird) : Vector2D × ℕ :=
  birds.foldl (aliStep b) (0, 0)

/-- `Bird::align(birds)`. -/
def Bird.align (b : Bird) (birds : List Bird) : Vector2D :=
  let s := aliAcc b birds
  if 0 < s.2 then
    let sum := ((s.1.sdiv (s.2 : ℝ)).normalize).smul b.maxSpeed
    (sum - b.velocity).limit b.maxForce
  else 0

/-- One neighbour step of `Bird::cohesion`'s accumulation loop. -/
def cohStep (b : Bird) (acc : Vector2D × ℕ) (other : Bird) : Vector2D × ℕ :=
  let d := Vector2D.distance b.position other.position
  if 0 < d ∧ d < b.cohesionRadius then (acc.1 + other.position, acc.2 + 1)
  else acc

/-- The accumulated `(sum, count)` pair of `Bird::cohesion`'s loop. -/
def cohAcc (b : Bird) (birds : List Bird) : Vector2D × ℕ :=
  birds.foldl (cohStep b) (0, 0)

/-- `Bird::cohesion(birds)`. -/
def Bird.cohesion (b : Bird) (birds : List Bird) : Vector2D :=
  let s := cohAcc b birds
  if 0 < s.2 then b.seek (s.1.sdiv (s.2 : ℝ))
  else 0

/-- `Bird::environmentalBias(windowWidth, windowHeight)` (width is unused
by the body, exactly as in the source). -/
def Bird.environmentalBias (b : Bird) (_windowWidth windowHeight : ℝ) : Vector2D :=
  let upperHalf := windowHeight * 0.3
  let biasY : ℝ :=
    if upperHalf < b.position.y then -((b.position.y - upperHalf) / upperHalf) * 0.8
    else 0.15
  let bias : Vector2D := ⟨0.5, biasY⟩
  let idealY := windowHeight * 0.2
  let distanceFromIdeal := |b.position.y - idealY| / (windowHeight * 0.5)
  ((((bias.normalize).smul (b.maxSpeed * (0.3 + distanceFromIdeal * 0.5)))
    - b.velocity)).limit (b.maxForce * 0.5)

/-- `Bird::flock(birds, w, h)`: weight the four steering forces and apply
them to the acceleration in source order. -/
def Bird.flock (b : Bird) (birds : List Bird) (windowWidth windowHeight : ℝ) : Bird :=
  let sep := (b.separate birds).smul 1.5
  let ali := (b.align birds).smul 1.0
  let coh := (b.cohesion birds).smul 1.0
  let bias := (b.environmentalBias windowWidth windowHeight).smul 0.8
  { b with acceleration := (((b.acceleration + sep) + ali) + coh) + bias }

/-- `Bird::borders(width, height)`: toroidal wrap, four sequential tests. -/
def Bird.borders (b : Bird) (width height : ℝ) : Bird :=
  let x1 := if b.position.x < -b.r then width + b.r else b.position.x
  let y1 := if b.position.y < -b.r then height + b.r else b.position.y
  let x2 := if width + b.r < x1 then -b.r else x1
  let y2 := if height + b.r < y1 then -b.r else y1
  { b with position := ⟨x2, y2⟩ }

/-- The first loop of `FlockingSystem::updateSerial`:
`for (auto& bird : birds) bird.flock(birds, w, h);`.  Bird `i`'s call sees the
accelerations already written by birds `0..i-1` (their positions/velocities
are untouched), so the neighbour list at each step is `done ++ rest`. -/
def seqFlock (windowWidth windowHeight : ℝ) (done rest : List Bird) : List Bird :=
  match rest with
  | [] => done
  | b :: rest' =>
    seqFlock windowWidth windowHeight
      (done ++ [b.flock (done ++ b :: rest') windowWidth windowHeight]) rest'

/-- `FlockingSystem::updateSerial()`: the force pass, then the
integrate-and-wrap pass (each iteration of the second loop touches only its
own bird, so it is a `map`). -/
def updateSerial (windowWidth windowHeight : ℝ) (birds : List Bird) : List Bird :=
  (seqFlock windowWidth windowHeight [] birds).map
    (fun b => (b.update).borders windowWidth windowHeight)

/-- The nine per-bird reduction variables of `updateParallel`'s neighbour
loop (`sep_x, sep_y, sep_c, ali_x, ali_y, ali_c, coh_x, coh_y, coh_c`). -/
structure NAcc where
  sepx : ℝ
  sepy : ℝ
  sepc : ℕ
  alix : ℝ
  aliy : ℝ
  alic : ℕ
  cohx : ℝ
  cohy : ℝ
  cohc : ℕ

/-- Zero-initialised accumulators. -/
def NAcc.init : NAcc := ⟨0, 0, 0, 0, 0, 0, 0, 0, 0⟩

/-- One iteration `j` of `updateParallel`'s inner `omp simd` loop for bird
`i` at `(pix, piy)`, with the shared squared radii. -/
def parStep (sepR2 aliR2 cohR2 pix piy : ℝ) (a : NAcc) (o : Bird) : NAcc :=
  let dx := pix - o.position.x
  let dy := piy - o.position.y
  let d2 := dx * dx + dy * dy
  if 0 < d2 then
    let a1 :=
      if d2 < sepR2 then
        let invd := 1 / Real.sqrt d2
        { a with sepx := a.sepx + dx * invd * invd,
                 sepy := a.sepy + dy * invd * invd,
                 sepc := a.sepc + 1 }
      else a
    let a2 :=
      if d2 < aliR2 then
        { a1 with alix := a1.alix + o.velocity.x,
                  aliy := a1.aliy + o.velocity.y,
                  alic := a1.alic + 1 }
      else a1
    if d2 < cohR2 then
      { a2 with cohx := a2.cohx + o.position.x,
                cohy := a2.cohy + o.position.y,
                cohc := a2.cohc + 1 }
    else a2
  else a

/-- The `fast_limit` lambda of `updateParallel`. -/
def fastLimit (v : Vector2D) (maxMag : ℝ) : Vector2D :=
  let s2 := v.x * v.x + v.y * v.y
  if maxMag * maxMag < s2 ∧ 0 < s2 then v.smul (maxMag / Real.sqrt s2)
  else v

/-- The acceleration `updateParallel` computes for one bird `i` from the
snapshot: the neighbour reduction followed by the four combine blocks
(separation ×1.5, alignment, cohesion, environmental bias ×0.8). -/
def parAccel (b : Bird) (snapshot : List Bird) (sepR2 aliR2 cohR2 windowHeight : ℝ) :
    Vector2D :=
  let pix := b.position.x
  let piy := b.position.y
  let vix := b.velocity.x
  let viy := b.velocity.y
  let A := snapshot.foldl (parStep sepR2 aliR2 cohR2 pix piy) NAcc.init
  let sepPart : Vector2D :=
    if 0 < A.sepc then
      let sx := A.sepx / (A.sepc : ℝ)
      let sy := A.sepy / (A.sepc : ℝ)
      let s2 := sx * sx + sy * sy
      if 0 < s2 then
        let inv := 1 / Real.sqrt s2
        (fastLimit ⟨sx * inv * b.maxSpeed - vix, sy * inv * b.maxSpeed - viy⟩
          b.maxForce).smul 1.5
      else 0
    else 0
  let aliPart : Vector2D :=
    if 0 < A.alic then
      let axm := A.alix / (A.alic : ℝ)
      let aym := A.aliy / (A.alic : ℝ)
      let s2 := axm * axm + aym * aym
      if 0 < s2 then
        let inv := 1 / Real.sqrt s2
        fastLimit ⟨axm * inv * b.maxSpeed - vix, aym * inv * b.maxSpeed - viy⟩
          b.maxForce
      else 0
    else 0
  let cohPart : Vector2D :=
    if 0 < A.cohc then
      let tx := A.cohx / (A.cohc : ℝ)
      let ty := A.cohy / (A.cohc : ℝ)
      let dx := tx - pix
      let dy := ty - piy
      let s2 := dx * dx + dy * dy
      if 0 < s2 then
        let inv := 1 / Real.sqrt s2
        fastLimit ⟨dx * inv * b.maxSpeed - vix, dy * inv * b.maxSpeed - viy⟩
          b.maxForce
      else 0
    else 0
  let biasPart : Vector2D :=
    let bx : ℝ := 0.5
    let upperHalf := windowHeight * 0.3
    let biasY : ℝ :=
      if upperHalf < piy then -((piy - upperHalf) / upperHalf) * 0.8
      else 0.15
    let idealY := windowHeight * 0.2
    let distanceFromIdeal := |piy - idealY| / (windowHeight * 0.5)
    let b2 := bx * bx + biasY * biasY
    if 0 < b2 then
      let inv := 1 / Real.sqrt b2
      let speed := b.maxSpeed * (0.3 + distanceFromIdeal * 0.5)
      (fastLimit ⟨bx * inv * speed - vix, biasY * inv * speed - viy⟩
        (b.maxForce * 0.5)).smul 0.8
    else 0
  ((sepPart + aliPart) + cohPart) + biasPart

/-- `FlockingSystem::updateParallel()`: no-op on an empty flock; otherwise
snapshot, shared squared radii from `birds[0]`, per-bird force computation
into a buffer, then per-bird integration and wrap.  Every parallel loop has
agent-disjoint writes over a read-only snapshot, so its denotation is a map
over the input list. -/
def updateParallel (windowWidth windowHeight : ℝ) (birds : List Bird) : List Bird :=
  match birds with
  | [] => []
  | b0 :: rest =>
    let all := b0 :: rest
    let sepR2 := b0.separationRadius * b0.separationRadius
    let aliR2 := b0.alignmentRadius * b0.alignmentRadius
    let cohR2 := b0.cohesionRadius * b0.cohesionRadius
    all.map (fun b =>
      let acc := parAccel b all sepR2 aliR2 cohR2 windowHeight
      (({ b with acceleration := b.acceleration + acc } : Bird).update).borders
        windowWidth windowHeight)

/-- `FlockingSystem::removeBoids(count)`: clear when `count >= size`, else
erase the last `count` elements (keep the first `size - count`). -/
def removeBoids (count : ℕ) (birds : List Bird) : List Bird :=
  if birds.length ≤ count then []
  else birds.take (birds.length - count)

/-- `FlockingSystem::getCoherence()`: `0` for fewer than two birds, else the
mean distance of the birds from the centroid. -/
def getCoherence (birds : List Bird) : ℝ :=
  if birds.length < 2 then 0
  else
    let n : ℝ := birds.length
    let cx := (birds.foldl (fun s b => s + b.position.x) 0) / n
    let cy := (birds.foldl (fun s b => s + b.position.y) 0) / n
    (birds.foldl
      (fun s b =>
        s + Real.sqrt ((b.position.x - cx) * (b.position.x - cx)
          + (b.position.y - cy) * (b.position.y - cy))) 0) / n

/-- The centroid and mean-distance reduction written from the spec's words
("mean distance of each agent from the flock's centroid"), for comparison
with `getCoherence`. -/
def specMeanDistFromCentroid (birds : List Bird) : ℝ :=
  let n : ℝ := birds.length
  let centroid : Vector2D :=
    ⟨(birds.foldl (fun s b => s + b.position.x) 0) / n,
     (birds.foldl (fun s b => s + b.position.y) 0) / n⟩
  (birds.foldl (fun s b => s + Vector2D.distance b.position centroid) 0) / n

/-! ## General helper lemmas -/

lemma normalize_zero : (0 : Vector2D).normalize = 0 := by
  unfold Vector2D.normalize
  rw [magnitude_zero]
  simp

lemma distance_self (p : Vector2D) : Vector2D.distance p p = 0 := by
  unfold Vector2D.distance Vector2D.magnitude
  simp

lemma sqrt_twentyfive : Real.sqrt 25 = 5 := by
  rw [show (25 : ℝ) = 5 ^ 2 by norm_num, Real.sqrt_sq (by norm_num : (0:ℝ) ≤ 5)]

lemma foldl_congr_id {α β : Type} (l : List α) (f : β → α → β) (acc : β)
    (h : ∀ a ∈ l, ∀ x, f x a = x) : l.foldl f acc = acc := by
  induction l generalizing acc with
  | nil => rfl
  | cons a l ih =>
    rw [List.foldl_cons, h a (by simp)]
    exact ih _ (fun a' ha' x => h a' (by simp [ha']) x)

/-! ## Claim C7: normalization of the zero vector is a no-op -/

/-- **C7.** `normalize()` applied to the zero vector `(0,0)` leaves it at
`(0,0)`: the division by the magnitude is guarded by `if (mag > 0)`, which
fails, so no division (hence no NaN/infinity) ever happens. -/
theorem c7_normalize_zero_noop : (0 : Vector2D).normalize = 0 := by
  unfold Vector2D.normalize
  rw [magnitude_zero]
  simp

/-! ## Claim C3: update() semantics and the speed cap -/

/-- **C3.** `update()` adds the acceleration to the velocity, clamps the
velocity to `maxSpeed`, advances the position by the clamped velocity, and
resets the acceleration to zero; consequently (for the nonnegative speed
caps the program uses) the post-update velocity magnitude is at most
`maxSpeed`. -/
theorem c3_update_semantics (b : Bird) :
    (b.update).velocity = (b.velocity + b.acceleration).limit b.maxSpeed
    ∧ (b.update).position = b.position + (b.velocity + b.acceleration).limit b.maxSpeed
    ∧ (b.update).acceleration = 0
    ∧ (0 ≤ b.maxSpeed → (b.update).velocity.magnitude ≤ b.maxSpeed) := by
  refine ⟨rfl, rfl, ?_, ?_⟩
  · show b.acceleration.smul 0 = 0
    unfold Vector2D.smul
    ext <;> simp
  · intro h
    exact magnitude_limit_le _ _ h

/-- Witness for C3 at a concrete bird whose raw new velocity `(3,4)` exceeds
the cap `2`. -/
theorem c3_witness :
    (0 : ℝ) ≤ 2
    ∧ (Bird.update ⟨⟨0, 0⟩, ⟨3, 4⟩, ⟨0, 0⟩, 4, 2, 3/100, 25, 50, 50⟩).velocity.magnitude ≤ 2 :=
  ⟨by norm_num,
   (c3_update_semantics ⟨⟨0, 0⟩, ⟨3, 4⟩, ⟨0, 0⟩, 4, 2, 3/100, 25, 50, 50⟩).2.2.2 (by norm_num)⟩

/-! ## Claim C5: borders() toroidal wrap -/

/-- **C5.** `borders(width, height)`: a coordinate strictly beyond a bound
by more than `r` is teleported to the opposite edge, and a coordinate within
`[-r, bound + r]` is left unchanged on that axis. -/
theorem c5_borders_wrap (b : Bird) (width height : ℝ)
    (hr : 0 ≤ b.r) (hw : 0 ≤ width) (hh : 0 ≤ height) :
    (width + b.r < b.position.x → (b.borders width height).position.x = -b.r)
    ∧ (b.position.x < -b.r → (b.borders width height).position.x = width + b.r)
    ∧ (height + b.r < b.position.y → (b.borders width height).position.y = -b.r)
    ∧ (b.position.y < -b.r → (b.borders width height).position.y = height + b.r)
    ∧ (-b.r ≤ b.position.x → b.position.x ≤ width + b.r →
        (b.borders width height).position.x = b.position.x)
    ∧ (-b.r ≤ b.position.y → b.position.y ≤ height + b.r →
        (b.borders width height).position.y = b.position.y) := by
  unfold Bird.borders
  refine ⟨?_, ?_, ?_, ?_, ?_, ?_⟩ <;> intro h1 <;> try intro h2
  all_goals simp only
  all_goals split_ifs <;> first | rfl | linarith

/-- Witness for C5: viewport `10 × 10`, radius `4`, position
`(width + r + 1, 3) = (15, 3)`: `x` wraps to exactly `-r = -4`, `y` stays. -/
theorem c5_witness :
    (Bird.borders ⟨⟨15, 3⟩, 0, 0, 4, 2, 3/100, 25, 50, 50⟩ 10 10).position.x = -4
    ∧ (Bird.borders ⟨⟨15, 3⟩, 0, 0, 4, 2, 3/100, 25, 50, 50⟩ 10 10).position.y = 3 := by
  have h := c5_borders_wrap ⟨⟨15, 3⟩, 0, 0, 4, 2, 3/100, 25, 50, 50⟩ 10 10
    (by norm_num) (by norm_num) (by norm_num)
  refine ⟨?_, ?_⟩
  · have := h.1 (by norm_num)
    simpa using this
  · have := h.2.2.2.2.2 (by norm_num) (by norm_num)
    simpa using this

/-! ## Claim C8: removeBoids drops from the tail -/

/-- **C8.** `removeBoids(n)` with `n ≥ size` empties the flock; with
`n < size` it keeps exactly the first `size - n` birds in insertion order
(the dropped birds are exactly the tail). -/
theorem c8_removeBoids (birds : List Bird) (n : ℕ) :
    (birds.length ≤ n → removeBoids n birds = [])
    ∧ (n < birds.length →
        (removeBoids n birds).length = birds.length - n
        ∧ removeBoids n birds = birds.take (birds.length - n)
        ∧ removeBoids n birds ++ birds.drop (birds.length - n) = birds) := by
  constructor
  · intro h
    unfold removeBoids
    rw [if_pos h]
  · intro h
    have hn : ¬ birds.length ≤ n := not_le.mpr h
    unfold removeBoids
    rw [if_neg hn]
    refine ⟨?_, rfl, List.take_append_drop _ _⟩
    rw [List.length_take]
    omega

/-- Witness for C8 on a two-bird flock with `n = 1`: one survivor, the
first bird. -/
theorem c8_witness :
    1 < ([(⟨⟨1, 1⟩, 0, 0, 4, 2, 3/100, 25, 50, 50⟩ : Bird),
          ⟨⟨2, 2⟩, 0, 0, 4, 2, 3/100, 25, 50, 50⟩] : List Bird).length
    ∧ (removeBoids 1 [(⟨⟨1, 1⟩, 0, 0, 4, 2, 3/100, 25, 50, 50⟩ : Bird),
          ⟨⟨2, 2⟩, 0, 0, 4, 2, 3/100, 25, 50, 50⟩]).length = 1 :=
  ⟨by norm_num,
   ((c8_removeBoids [⟨⟨1, 1⟩, 0, 0, 4, 2, 3/100, 25, 50, 50⟩,
      ⟨⟨2, 2⟩, 0, 0, 4, 2, 3/100, 25, 50, 50⟩] 1).2 (by norm_num)).1⟩

/-! ## Claim C4: the copy-returning normalized() never terminates -/

/-- **C4 (code bug).** The source's `normalized()` copies the vector and then
calls `normalized()` — itself — on the copy instead of `normalize()`, so the
recursion never bottoms out: for every fuel bound and every input vector the
call fails to return.  (The spec's claim that `normalized` terminates and
returns a unit-magnitude copy describes the obvious intent, to which the
in-place `Vector2D.normalize` conforms.) -/
theorem c4_normalized_never_returns (fuel : ℕ) (v : Vector2D) :
    Vector2D.normalizedFuel fuel v = none := by
  induction fuel with
  | zero => rfl
  | succ n ih =>
    unfold Vector2D.normalizedFuel
    rw [ih]

/-! ## Claim C6: zero contributors give a zero steering force -/

/-- **C6.** When no other agent lies strictly within the respective radius
(every candidate is at distance `0` — the agent itself — or at/beyond the
radius), `separate`, `align` and `cohesion` all return the zero vector. -/
theorem c6_zero_contributors (b : Bird) (birds : List Bird)
    (hsep : ∀ o ∈ birds, ¬(0 < Vector2D.distance b.position o.position ∧
        Vector2D.distance b.position o.position < b.separationRadius))
    (hali : ∀ o ∈ birds, ¬(0 < Vector2D.distance b.position o.position ∧
        Vector2D.distance b.position o.position < b.alignmentRadius))
    (hcoh : ∀ o ∈ birds, ¬(0 < Vector2D.distance b.position o.position ∧
        Vector2D.distance b.position o.position < b.cohesionRadius)) :
    b.separate birds = 0 ∧ b.align birds = 0 ∧ b.cohesion birds = 0 := by
  have hs : sepAcc b birds = (0, 0) :=
    foldl_congr_id _ _ _ (fun o ho x => by unfold sepStep; rw [if_neg (hsep o ho)])
  have ha : aliAcc b birds = (0, 0) :=
    foldl_congr_id _ _ _ (fun o ho x => by unfold aliStep; rw [if_neg (hali o ho)])
  have hc : cohAcc b birds = (0, 0) :=
    foldl_congr_id _ _ _ (fun o ho x => by unfold cohStep; rw [if_neg (hcoh o ho)])
  refine ⟨?_, ?_, ?_⟩
  · unfold Bird.separate
    rw [hs]
    simp
  · unfold Bird.align
    rw [ha]
    simp
  · unfold Bird.cohesion
    rw [hc]
    simp

/-- Witness for C6: a single-agent flock, whose only candidate neighbour is
the agent itself at distance `0`. -/
theorem c6_witness :
    Bird.separate ⟨⟨5, 5⟩, ⟨1, 0⟩, 0, 4, 2, 3/100, 25, 50, 50⟩
        [⟨⟨5, 5⟩, ⟨1, 0⟩, 0, 4, 2, 3/100, 25, 50, 50⟩] = 0
    ∧ Bird.align ⟨⟨5, 5⟩, ⟨1, 0⟩, 0, 4, 2, 3/100, 25, 50, 50⟩
        [⟨⟨5, 5⟩, ⟨1, 0⟩, 0, 4, 2, 3/100, 25, 50, 50⟩] = 0
    ∧ Bird.cohesion ⟨⟨5, 5⟩, ⟨1, 0⟩, 0, 4, 2, 3/100, 25, 50, 50⟩
        [⟨⟨5, 5⟩, ⟨1, 0⟩, 0, 4, 2, 3/100, 25, 50, 50⟩] = 0 :=
  c6_zero_contributors _ _
    (by intro o ho; simp only [List.mem_singleton] at ho; subst ho
        simp [distance_self])
    (by intro o ho; simp only [List.mem_singleton] at ho; subst ho
        simp [distance_self])
    (by intro o ho; simp only [List.mem_singleton] at ho; subst ho
        simp [distance_self])

/-! ## Claim C2: seek() semantics (corrected at target == position) -/

/-- **C2 (amended).** `seek(target)` returns the desired velocity toward
`target` at magnitude `maxSpeed`, minus the current velocity, clamped to
`maxForce`.  When `target == position` the *desired* velocity degenerates to
the zero vector (normalize of zero is a no-op), so the returned steering is
the clamp of `0 - velocity`, which is the zero vector only when the current
velocity is itself zero. -/
theorem c2_seek_semantics (b : Bird) (target : Vector2D) :
    b.seek target
      = ((((target - b.position).normalize).smul b.maxSpeed) - b.velocity).limit b.maxForce
    ∧ (target = b.position →
        b.seek target = ((0 : Vector2D) - b.velocity).limit b.maxForce) := by
  refine ⟨rfl, ?_⟩
  intro h
  subst h
  unfold Bird.seek
  have h0 : b.position - b.position = (0 : Vector2D) := by
    ext <;> simp
  rw [h0, normalize_zero]
  have h1 : (0 : Vector2D).smul b.maxSpeed = 0 := by
    unfold Vector2D.smul
    ext <;> simp
  rw [h1]

/-- Witness for C2's amended statement at a concrete bird and target. -/
theorem c2_witness :
    (⟨5, 5⟩ : Vector2D) = (Bird.position ⟨⟨5, 5⟩, ⟨3, 4⟩, 0, 4, 2, 3/100, 25, 50, 50⟩)
    ∧ Bird.seek ⟨⟨5, 5⟩, ⟨3, 4⟩, 0, 4, 2, 3/100, 25, 50, 50⟩ ⟨5, 5⟩
      = ((0 : Vector2D) - (⟨3, 4⟩ : Vector2D)).limit (3/100) :=
  ⟨rfl, (c2_seek_semantics ⟨⟨5, 5⟩, ⟨3, 4⟩, 0, 4, 2, 3/100, 25, 50, 50⟩ ⟨5, 5⟩).2 rfl⟩

/-- **C2 (counterexample).** The claim "when `target == position` the
returned steering force degenerates to the zero vector" fails for any agent
with a nonzero velocity: at velocity `(3,4)` and `maxForce = 3/100` the
returned steering is `(-9/500, -3/125)`, not zero. -/
theorem c2_counterexample :
    Bird.seek ⟨⟨5, 5⟩, ⟨3, 4⟩, 0, 4, 2, 3/100, 25, 50, 50⟩ ⟨5, 5⟩ ≠ 0 := by
  have h := (c2_seek_semantics ⟨⟨5, 5⟩, ⟨3, 4⟩, 0, 4, 2, 3/100, 25, 50, 50⟩ ⟨5, 5⟩).2 rfl
  rw [h]
  have hsub : ((0 : Vector2D) - (⟨3, 4⟩ : Vector2D)) = ⟨-3, -4⟩ := by
    ext <;> simp
  have hmag : (⟨-3, -4⟩ : Vector2D).magnitude = 5 := by
    unfold Vector2D.magnitude
    rw [show ((-3 : ℝ) * -3 + (-4) * -4 : ℝ) = 25 by norm_num]
    exact sqrt_twentyfive
  rw [hsub]
  unfold Vector2D.limit
  rw [hmag, if_pos (by norm_num : (3:ℝ)/100 < 5)]
  unfold Vector2D.normalize
  rw [hmag, if_pos (by norm_num : (0:ℝ) < 5)]
  intro heq
  have hx := congrArg Vector2D.x heq
  simp only [Vector2D.smul, vzero_x] at hx
  norm_num at hx

/-! ## Claim C9: getCoherence() -/

/-- **C9.** `getCoherence()` is `0` for fewer than two birds; otherwise it is
the mean distance of the birds from the flock centroid; on two birds at
`(0,0)` and `(10,0)` it is exactly `5`. -/
theorem c9_coherence (birds : List Bird) :
    (birds.length < 2 → getCoherence birds = 0)
    ∧ (2 ≤ birds.length → getCoherence birds = specMeanDistFromCentroid birds)
    ∧ getCoherence [⟨⟨0, 0⟩, 0, 0, 4, 2, 3/100, 25, 50, 50⟩,
        ⟨⟨10, 0⟩, 0, 0, 4, 2, 3/100, 25, 50, 50⟩] = 5 := by
  refine ⟨?_, ?_, ?_⟩
  · intro h
    unfold getCoherence
    rw [if_pos h]
  · intro h
    unfold getCoherence specMeanDistFromCentroid
    rw [if_neg (not_lt.mpr h)]
    rfl
  · unfold getCoherence
    rw [if_neg (by norm_num)]
    simp only [List.foldl, List.length_cons, List.length_nil]
    norm_num
    exact sqrt_twentyfive

/-- Witness for C9: a singleton flock has coherence `0`, and the concrete
two-bird flock of the claim gives exactly `5`. -/
theorem c9_witness :
    getCoherence [⟨⟨7, 3⟩, 0, 0, 4, 2, 3/100, 25, 50, 50⟩] = 0
    ∧ getCoherence [⟨⟨0, 0⟩, 0, 0, 4, 2, 3/100, 25, 50, 50⟩,
        ⟨⟨10, 0⟩, 0, 0, 4, 2, 3/100, 25, 50, 50⟩] = 5 :=
  ⟨(c9_coherence [⟨⟨7, 3⟩, 0, 0, 4, 2, 3/100, 25, 50, 50⟩]).1 (by norm_num),
   (c9_coherence []).2.2⟩

/-! ## Helper lemmas toward the serial/parallel comparison (C1) -/

lemma vadd_assoc (a b c : Vector2D) : a + b + c = a + (b + c) := by
  ext <;> simp <;> ring

lemma vadd_zero (a : Vector2D) : a + 0 = a := by
  ext <;> simp

lemma zero_vadd (a : Vector2D) : 0 + a = a := by
  ext <;> simp

lemma sqrt_lt_iff_mul_self {x R : ℝ} (hx : 0 ≤ x) (hR : 0 ≤ R) :
    Real.sqrt x < R ↔ x < R * R := by
  constructor
  · intro h
    nlinarith [Real.mul_self_sqrt hx, Real.sqrt_nonneg x]
  · intro h
    by_contra hle
    push_neg at hle
    nlinarith [Real.mul_self_sqrt hx, Real.sqrt_nonneg x]

/-- The serial `Vector2D::limit` agrees with the parallel path's
`fast_limit` for any non-negative bound. -/
lemma limit_eq_fastLimit (v : Vector2D) (m : ℝ) (hm : 0 ≤ m) :
    v.limit m = fastLimit v m := by
  have hs : v.magnitude * v.magnitude = v.x * v.x + v.y * v.y := magnitude_sq v
  unfold Vector2D.limit fastLimit
  by_cases h : m < v.magnitude
  · rw [if_pos h]
    have hmagpos : 0 < v.magnitude := lt_of_le_of_lt hm h
    have hcond : m * m < v.x * v.x + v.y * v.y ∧ 0 < v.x * v.x + v.y * v.y := by
      constructor <;> nlinarith
    rw [if_pos hcond]
    unfold Vector2D.normalize
    rw [if_pos hmagpos]
    have hmageq : Real.sqrt (v.x * v.x + v.y * v.y) = v.magnitude := rfl
    rw [hmageq]
    ext <;> simp [Vector2D.smul] <;> ring
  · rw [if_neg h]
    have hle : v.magnitude ≤ m := not_lt.mp h
    have hcond : ¬(m * m < v.x * v.x + v.y * v.y ∧ 0 < v.x * v.x + v.y * v.y) := by
      intro hc
      obtain ⟨h1, _⟩ := hc
      nlinarith [magnitude_nonneg v]
    rw [if_neg hcond]

lemma foldl_count_monotone {α : Type} (step : Vector2D × ℕ → α → Vector2D × ℕ)
    (hstep : ∀ acc a, step acc a = acc ∨ (step acc a).2 = acc.2 + 1) :
    ∀ (l : List α) (acc : Vector2D × ℕ), acc.2 ≤ (l.foldl step acc).2 := by
  intro l
  induction l with
  | nil => intro acc; exact le_refl _
  | cons a l ih =>
    intro acc
    rw [List.foldl_cons]
    rcases hstep acc a with h | h
    · rw [h]; exact ih acc
    · exact le_trans (by omega) (ih (step acc a))

lemma foldl_eq_of_count_eq {α : Type} (step : Vector2D × ℕ → α → Vector2D × ℕ)
    (hstep : ∀ acc a, step acc a = acc ∨ (step acc a).2 = acc.2 + 1) :
    ∀ (l : List α) (acc : Vector2D × ℕ),
      (l.foldl step acc).2 = acc.2 → l.foldl step acc = acc := by
  intro l
  induction l with
  | nil => intro acc _; rfl
  | cons a l ih =>
    intro acc hcount
    rw [List.foldl_cons] at hcount ⊢
    rcases hstep acc a with h | h
    · rw [h] at hcount ⊢
      exact ih acc hcount
    · exfalso
      have := foldl_count_monotone step hstep l (step acc a)
      omega

lemma sepStep_shape (b : Bird) : ∀ (acc : Vector2D × ℕ) (o : Bird),
    sepStep b acc o = acc ∨ (sepStep b acc o).2 = acc.2 + 1 := by
  intro acc o
  unfold sepStep
  dsimp only
  split_ifs
  · right; rfl
  · left; rfl

lemma aliStep_shape (b : Bird) : ∀ (acc : Vector2D × ℕ) (o : Bird),
    aliStep b acc o = acc ∨ (aliStep b acc o).2 = acc.2 + 1 := by
  intro acc o
  unfold aliStep
  dsimp only
  split_ifs
  · right; rfl
  · left; rfl

lemma cohStep_shape (b : Bird) : ∀ (acc : Vector2D × ℕ) (o : Bird),
    cohStep b acc o = acc ∨ (cohStep b acc o).2 = acc.2 + 1 := by
  intro acc o
  unfold cohStep
  dsimp only
  split_ifs
  · right; rfl
  · left; rfl

/-- If `separate`'s loop contributed nothing, its accumulator is still zero. -/
lemma sepAcc_of_count_zero (b : Bird) (birds : List Bird)
    (h : (sepAcc b birds).2 = 0) : sepAcc b birds = (0, 0) :=
  foldl_eq_of_count_eq _ (sepStep_shape b) birds (0, 0) h

/-- The serial `separate` accumulation step, re-expressed over the squared
distance exactly as the parallel kernel computes it. -/
lemma sepStep_char (b o : Bird) (s : Vector2D × ℕ) (hrs : 0 ≤ b.separationRadius) :
    sepStep b s o =
      if 0 < (b.position.x - o.position.x) * (b.position.x - o.position.x)
            + (b.position.y - o.position.y) * (b.position.y - o.position.y)
         ∧ (b.position.x - o.position.x) * (b.position.x - o.position.x)
            + (b.position.y - o.position.y) * (b.position.y - o.position.y)
           < b.separationRadius * b.separationRadius
      then (s.1 + ⟨(b.position.x - o.position.x)
              * (1 / Real.sqrt ((b.position.x - o.position.x) * (b.position.x - o.position.x)
                  + (b.position.y - o.position.y) * (b.position.y - o.position.y)))
              * (1 / Real.sqrt ((b.position.x - o.position.x) * (b.position.x - o.position.x)
                  + (b.position.y - o.position.y) * (b.position.y - o.position.y))),
            (b.position.y - o.position.y)
              * (1 / Real.sqrt ((b.position.x - o.position.x) * (b.position.x - o.position.x)
                  + (b.position.y - o.position.y) * (b.position.y - o.position.y)))
              * (1 / Real.sqrt ((b.position.x - o.position.x) * (b.position.x - o.position.x)
                  + (b.position.y - o.position.y) * (b.position.y - o.position.y)))⟩,
            s.2 + 1)
      else s := by
  set dx := b.position.x - o.position.x with hdx
  set dy := b.position.y - o.position.y with hdy
  set D2 := dx * dx + dy * dy with hD2
  have hD2nn : 0 ≤ D2 := add_nonneg (mul_self_nonneg _) (mul_self_nonneg _)
  have hdisteq : Vector2D.distance b.position o.position = Real.sqrt D2 := rfl
  unfold sepStep
  dsimp only
  by_cases hc : 0 < D2 ∧ D2 < b.separationRadius * b.separationRadius
  · rw [if_pos hc, if_pos (show 0 < Vector2D.distance b.position o.position
        ∧ Vector2D.distance b.position o.position < b.separationRadius by
      constructor
      · rw [hdisteq]; exact Real.sqrt_pos.mpr hc.1
      · rw [hdisteq]; exact (sqrt_lt_iff_mul_self hD2nn hrs).mpr hc.2)]
    have hnorm : (b.position - o.position).normalize
        = ⟨dx / Real.sqrt D2, dy / Real.sqrt D2⟩ := by
      unfold Vector2D.normalize
      have hmageq : (b.position - o.position).magnitude = Real.sqrt D2 := rfl
      rw [hmageq, if_pos (Real.sqrt_pos.mpr hc.1)]
      ext <;> simp [hdx, hdy]
    rw [hnorm, hdisteq]
    have hval : ((⟨dx / Real.sqrt D2, dy / Real.sqrt D2⟩ : Vector2D).sdiv (Real.sqrt D2))
        = (⟨dx * (1 / Real.sqrt D2) * (1 / Real.sqrt D2),
            dy * (1 / Real.sqrt D2) * (1 / Real.sqrt D2)⟩ : Vector2D) := by
      ext <;> simp [Vector2D.sdiv] <;> ring
    rw [hval]
  · rw [if_neg hc]
    apply if_neg
    intro hser
    apply hc
    rw [hdisteq] at hser
    exact ⟨Real.sqrt_pos.mp hser.1, (sqrt_lt_iff_mul_self hD2nn hrs).mp hser.2⟩

/-- The serial `align` accumulation step over the squared distance. -/
lemma aliStep_char (b o : Bird) (s : Vector2D × ℕ) (hra : 0 ≤ b.alignmentRadius) :
    aliStep b s o =
      if 0 < (b.position.x - o.position.x) * (b.position.x - o.position.x)
            + (b.position.y - o.position.y) * (b.position.y - o.position.y)
         ∧ (b.position.x - o.position.x) * (b.position.x - o.position.x)
            + (b.position.y - o.position.y) * (b.position.y - o.position.y)
           < b.alignmentRadius * b.alignmentRadius
      then (s.1 + o.velocity, s.2 + 1)
      else s := by
  set dx := b.position.x - o.position.x with hdx
  set dy := b.position.y - o.position.y with hdy
  set D2 := dx * dx + dy * dy with hD2
  have hD2nn : 0 ≤ D2 := add_nonneg (mul_self_nonneg _) (mul_self_nonneg _)
  have hdisteq : Vector2D.distance b.position o.position = Real.sqrt D2 := rfl
  unfold aliStep
  dsimp only
  by_cases hc : 0 < D2 ∧ D2 < b.alignmentRadius * b.alignmentRadius
  · rw [if_pos hc, if_pos (show 0 < Vector2D.distance b.position o.position
        ∧ Vector2D.distance b.position o.position < b.alignmentRadius by
      constructor
      · rw [hdisteq]; exact Real.sqrt_pos.mpr hc.1
      · rw [hdisteq]; exact (sqrt_lt_iff_mul_self hD2nn hra).mpr hc.2)]
  · rw [if_neg hc]
    apply if_neg
    intro hser
    apply hc
    rw [hdisteq] at hser
    exact ⟨Real.sqrt_pos.mp hser.1, (sqrt_lt_iff_mul_self hD2nn hra).mp hser.2⟩

/-- The serial `cohesion` accumulation step over the squared distance. -/
lemma cohStep_char (b o : Bird) (s : Vector2D × ℕ) (hrc : 0 ≤ b.cohesionRadius) :
    cohStep b s o =
      if 0 < (b.position.x - o.position.x) * (b.position.x - o.position.x)
            + (b.position.y - o.position.y) * (b.position.y - o.position.y)
         ∧ (b.position.x - o.position.x) * (b.position.x - o.position.x)
            + (b.position.y - o.position.y) * (b.position.y - o.position.y)
           < b.cohesionRadius * b.cohesionRadius
      then (s.1 + o.position, s.2 + 1)
      else s := by
  set dx := b.position.x - o.position.x with hdx
  set dy := b.position.y - o.position.y with hdy
  set D2 := dx * dx + dy * dy with hD2
  have hD2nn : 0 ≤ D2 := add_nonneg (mul_self_nonneg _) (mul_self_nonneg _)
  have hdisteq : Vector2D.distance b.position o.position = Real.sqrt D2 := rfl
  unfold cohStep
  dsimp only
  by_cases hc : 0 < D2 ∧ D2 < b.cohesionRadius * b.cohesionRadius
  · rw [if_pos hc, if_pos (show 0 < Vector2D.distance b.position o.position
        ∧ Vector2D.distance b.position o.position < b.cohesionRadius by
      constructor
      · rw [hdisteq]; exact Real.sqrt_pos.mpr hc.1
      · rw [hdisteq]; exact (sqrt_lt_iff_mul_self hD2nn hrc).mpr hc.2)]
  · rw [if_neg hc]
    apply if_neg
    intro hser
    apply hc
    rw [hdisteq] at hser
    exact ⟨Real.sqrt_pos.mp hser.1, (sqrt_lt_iff_mul_self hD2nn hrc).mp hser.2⟩

/-- The parallel reduction step, field by field: the three accumulator
groups are updated independently, each under its own squared-radius test. -/
lemma parStep_fields (sepR2 aliR2 cohR2 pix piy : ℝ) (a : NAcc) (o : Bird) :
    parStep sepR2 aliR2 cohR2 pix piy a o =
      ⟨if 0 < (pix - o.position.x) * (pix - o.position.x)
            + (piy - o.position.y) * (piy - o.position.y)
         ∧ (pix - o.position.x) * (pix - o.position.x)
            + (piy - o.position.y) * (piy - o.position.y) < sepR2
       then a.sepx + (pix - o.position.x)
          * (1 / Real.sqrt ((pix - o.position.x) * (pix - o.position.x)
              + (piy - o.position.y) * (piy - o.position.y)))
          * (1 / Real.sqrt ((pix - o.position.x) * (pix - o.position.x)
              + (piy - o.position.y) * (piy - o.position.y)))
       else a.sepx,
       if 0 < (pix - o.position.x) * (pix - o.position.x)
            + (piy - o.position.y) * (piy - o.position.y)
         ∧ (pix - o.position.x) * (pix - o.position.x)
            + (piy - o.position.y) * (piy - o.position.y) < sepR2
       then a.sepy + (piy - o.position.y)
          * (1 / Real.sqrt ((pix - o.position.x) * (pix - o.position.x)
              + (piy - o.position.y) * (piy - o.position.y)))
          * (1 / Real.sqrt ((pix - o.position.x) * (pix - o.position.x)
              + (piy - o.position.y) * (piy - o.position.y)))
       else a.sepy,
       if 0 < (pix - o.position.x) * (pix - o.position.x)
            + (piy - o.position.y) * (piy - o.position.y)
         ∧ (pix - o.position.x) * (pix - o.position.x)
            + (piy - o.position.y) * (piy - o.position.y) < sepR2
       then a.sepc + 1 else a.sepc,
       if 0 < (pix - o.position.x) * (pix - o.position.x)
            + (piy - o.position.y) * (piy - o.position.y)
         ∧ (pix - o.position.x) * (pix - o.position.x)
            + (piy - o.position.y) * (piy - o.position.y) < aliR2
       then a.alix + o.velocity.x else a.alix,
       if 0 < (pix - o.position.x) * (pix - o.position.x)
            + (piy - o.position.y) * (piy - o.position.y)
         ∧ (pix - o.position.x) * (pix - o.position.x)
            + (piy - o.position.y) * (piy - o.position.y) < aliR2
       then a.aliy + o.velocity.y else a.aliy,
       if 0 < (pix - o.position.x) * (pix - o.position.x)
            + (piy - o.position.y) * (piy - o.position.y)
         ∧ (pix - o.position.x) * (pix - o.position.x)
            + (piy - o.position.y) * (piy - o.position.y) < aliR2
       then a.alic + 1 else a.alic,
       if 0 < (pix - o.position.x) * (pix - o.position.x)
            + (piy - o.position.y) * (piy - o.position.y)
         ∧ (pix - o.position.x) * (pix - o.position.x)
            + (piy - o.position.y) * (piy - o.position.y) < cohR2
       then a.cohx + o.position.x else a.cohx,
       if 0 < (pix - o.position.x) * (pix - o.position.x)
            + (piy - o.position.y) * (piy - o.position.y)
         ∧ (pix - o.position.x) * (pix - o.position.x)
            + (piy - o.position.y) * (piy - o.position.y) < cohR2
       then a.cohy + o.position.y else a.cohy,
       if 0 < (pix - o.position.x) * (pix - o.position.x)
            + (piy - o.position.y) * (piy - o.position.y)
         ∧ (pix - o.position.x) * (pix - o.position.x)
            + (piy - o.position.y) * (piy - o.position.y) < cohR2
       then a.cohc + 1 else a.cohc⟩ := by
  set dx := pix - o.position.x with hdx
  set dy := piy - o.position.y with hdy
  set D2 := dx * dx + dy * dy with hD2
  unfold parStep
  dsimp only
  by_cases h0 : 0 < D2
  · rw [if_pos h0]
    by_cases hs : D2 < sepR2 <;> by_cases ha : D2 < aliR2 <;> by_cases hc : D2 < cohR2 <;>
      simp [hs, ha, hc, h0]
  · rw [if_neg h0]
    have hno : ∀ R : ℝ, ¬(0 < D2 ∧ D2 < R) := fun R hcc => h0 hcc.1
    simp [hno]

/-- The parallel neighbour reduction computes, component for component, the
same accumulators as the three serial loops, whenever the shared squared
radii are the bird's own (non-negative) radii squared. -/
lemma fold_rel (b : Bird)
    (hrs : 0 ≤ b.separationRadius) (hra : 0 ≤ b.alignmentRadius)
    (hrc : 0 ≤ b.cohesionRadius) :
    ∀ (l : List Bird) (a : NAcc) (s al c : Vector2D × ℕ),
      a.sepx = s.1.x → a.sepy = s.1.y → a.sepc = s.2 →
      a.alix = al.1.x → a.aliy = al.1.y → a.alic = al.2 →
      a.cohx = c.1.x → a.cohy = c.1.y → a.cohc = c.2 →
      (l.foldl (parStep (b.separationRadius * b.separationRadius)
          (b.alignmentRadius * b.alignmentRadius)
          (b.cohesionRadius * b.cohesionRadius) b.position.x b.position.y) a).sepx
          = (l.foldl (sepStep b) s).1.x
      ∧ (l.foldl (parStep (b.separationRadius * b.separationRadius)
          (b.alignmentRadius * b.alignmentRadius)
          (b.cohesionRadius * b.cohesionRadius) b.position.x b.position.y) a).sepy
          = (l.foldl (sepStep b) s).1.y
      ∧ (l.foldl (parStep (b.separationRadius * b.separationRadius)
          (b.alignmentRadius * b.alignmentRadius)
          (b.cohesionRadius * b.cohesionRadius) b.position.x b.position.y) a).sepc
          = (l.foldl (sepStep b) s).2
      ∧ (l.foldl (parStep (b.separationRadius * b.separationRadius)
          (b.alignmentRadius * b.alignmentRadius)
          (b.cohesionRadius * b.cohesionRadius) b.position.x b.position.y) a).alix
          = (l.foldl (aliStep b) al).1.x
      ∧ (l.foldl (parStep (b.separationRadius * b.separationRadius)
          (b.alignmentRadius * b.alignmentRadius)
          (b.cohesionRadius * b.cohesionRadius) b.position.x b.position.y) a).aliy
          = (l.foldl (aliStep b) al).1.y
      ∧ (l.foldl (parStep (b.separationRadius * b.separationRadius)
          (b.alignmentRadius * b.alignmentRadius)
          (b.cohesionRadius * b.cohesionRadius) b.position.x b.position.y) a).alic
          = (l.foldl (aliStep b) al).2
      ∧ (l.foldl (parStep (b.separationRadius * b.separationRadius)
          (b.alignmentRadius * b.alignmentRadius)
          (b.cohesionRadius * b.cohesionRadius) b.position.x b.position.y) a).cohx
          = (l.foldl (cohStep b) c).1.x
      ∧ (l.foldl (parStep (b.separationRadius * b.separationRadius)
          (b.alignmentRadius * b.alignmentRadius)
          (b.cohesionRadius * b.cohesionRadius) b.position.x b.position.y) a).cohy
          = (l.foldl (cohStep b) c).1.y
      ∧ (l.foldl (parStep (b.separationRadius * b.separationRadius)
          (b.alignmentRadius * b.alignmentRadius)
          (b.cohesionRadius * b.cohesionRadius) b.position.x b.position.y) a).cohc
          = (l.foldl (cohStep b) c).2 := by
  intro l
  induction l with
  | nil =>
    intro a s al c h1 h2 h3 h4 h5 h6 h7 h8 h9
    exact ⟨h1, h2, h3, h4, h5, h6, h7, h8, h9⟩
  | cons o l ih =>
    intro a s al c h1 h2 h3 h4 h5 h6 h7 h8 h9
    simp only [List.foldl_cons]
    apply ih
    · rw [parStep_fields, sepStep_char b o s hrs]
      dsimp only
      split_ifs with hC
      · simp [h1]
      · exact h1
    · rw [parStep_fields, sepStep_char b o s hrs]
      dsimp only
      split_ifs with hC
      · simp [h2]
      · exact h2
    · rw [parStep_fields, sepStep_char b o s hrs]
      dsimp only
      split_ifs with hC
      · simp [h3]
      · exact h3
    · rw [parStep_fields, aliStep_char b o al hra]
      dsimp only
      split_ifs with hC
      · simp [h4]
      · exact h4
    · rw [parStep_fields, aliStep_char b o al hra]
      dsimp only
      split_ifs with hC
      · simp [h5]
      · exact h5
    · rw [parStep_fields, aliStep_char b o al hra]
      dsimp only
      split_ifs with hC
      · simp [h6]
      · exact h6
    · rw [parStep_fields, cohStep_char b o c hrc]
      dsimp only
      split_ifs with hC
      · simp [h7]
      · exact h7
    · rw [parStep_fields, cohStep_char b o c hrc]
      dsimp only
      split_ifs with hC
      · simp [h8]
      · exact h8
    · rw [parStep_fields, cohStep_char b o c hrc]
      dsimp only
      split_ifs with hC
      · simp [h9]
      · exact h9

/-- The combine phase of `updateParallel` for one bird, as a function of the
three accumulated `(sum, count)` pairs. -/
def parCombine (b : Bird) (S AL C : Vector2D × ℕ) (windowHeight : ℝ) : Vector2D :=
  let pix := b.position.x
  let piy := b.position.y
  let vix := b.velocity.x
  let viy := b.velocity.y
  let sepPart : Vector2D :=
    if 0 < S.2 then
      let sx := S.1.x / (S.2 : ℝ)
      let sy := S.1.y / (S.2 : ℝ)
      let s2 := sx * sx + sy * sy
      if 0 < s2 then
        let inv := 1 / Real.sqrt s2
        (fastLimit ⟨sx * inv * b.maxSpeed - vix, sy * inv * b.maxSpeed - viy⟩
          b.maxForce).smul 1.5
      else 0
    else 0
  let aliPart : Vector2D :=
    if 0 < AL.2 then
      let axm := AL.1.x / (AL.2 : ℝ)
      let aym := AL.1.y / (AL.2 : ℝ)
      let s2 := axm * axm + aym * aym
      if 0 < s2 then
        let inv := 1 / Real.sqrt s2
        fastLimit ⟨axm * inv * b.maxSpeed - vix, aym * inv * b.maxSpeed - viy⟩
          b.maxForce
      else 0
    else 0
  let cohPart : Vector2D :=
    if 0 < C.2 then
      let tx := C.1.x / (C.2 : ℝ)
      let ty := C.1.y / (C.2 : ℝ)
      let dx := tx - pix
      let dy := ty - piy
      let s2 := dx * dx + dy * dy
      if 0 < s2 then
        let inv := 1 / Real.sqrt s2
        fastLimit ⟨dx * inv * b.maxSpeed - vix, dy * inv * b.maxSpeed - viy⟩
          b.maxForce
      else 0
    else 0
  let biasPart : Vector2D :=
    let bx : ℝ := 0.5
    let upperHalf := windowHeight * 0.3
    let biasY : ℝ :=
      if upperHalf < piy then -((piy - upperHalf) / upperHalf) * 0.8
      else 0.15
    let idealY := windowHeight * 0.2
    let distanceFromIdeal := |piy - idealY| / (windowHeight * 0.5)
    let b2 := bx * bx + biasY * biasY
    if 0 < b2 then
      let inv := 1 / Real.sqrt b2
      let speed := b.maxSpeed * (0.3 + distanceFromIdeal * 0.5)
      (fastLimit ⟨bx * inv * speed - vix, biasY * inv * speed - viy⟩
        (b.maxForce * 0.5)).smul 0.8
    else 0
  ((sepPart + aliPart) + cohPart) + biasPart

/-- The sum of the four weighted serial steering forces, as a function of
the three accumulated `(sum, count)` pairs. -/
def serCombine (b : Bird) (S AL C : Vector2D × ℕ) (windowWidth windowHeight : ℝ) :
    Vector2D :=
  (((if 0 < S.2 then
      let steer := S.1.sdiv (S.2 : ℝ)
      if 0 < steer.magnitude then
        (((steer.normalize).smul b.maxSpeed) - b.velocity).limit b.maxForce
      else steer
    else S.1).smul 1.5
  + (if 0 < AL.2 then
      ((((AL.1.sdiv (AL.2 : ℝ)).normalize).smul b.maxSpeed) - b.velocity).limit b.maxForce
    else 0).smul 1.0)
  + (if 0 < C.2 then b.seek (C.1.sdiv (C.2 : ℝ)) else 0).smul 1.0)
  + (b.environmentalBias windowWidth windowHeight).smul 0.8

lemma parAccel_eq_parCombine (b : Bird) (snapshot : List Bird)
    (sepR2 aliR2 cohR2 H : ℝ) :
    parAccel b snapshot sepR2 aliR2 cohR2 H
      = parCombine b
          (⟨(snapshot.foldl (parStep sepR2 aliR2 cohR2 b.position.x b.position.y)
              NAcc.init).sepx,
            (snapshot.foldl (parStep sepR2 aliR2 cohR2 b.position.x b.position.y)
              NAcc.init).sepy⟩,
           (snapshot.foldl (parStep sepR2 aliR2 cohR2 b.position.x b.position.y)
              NAcc.init).sepc)
          (⟨(snapshot.foldl (parStep sepR2 aliR2 cohR2 b.position.x b.position.y)
              NAcc.init).alix,
            (snapshot.foldl (parStep sepR2 aliR2 cohR2 b.position.x b.position.y)
              NAcc.init).aliy⟩,
           (snapshot.foldl (parStep sepR2 aliR2 cohR2 b.position.x b.position.y)
              NAcc.init).alic)
          (⟨(snapshot.foldl (parStep sepR2 aliR2 cohR2 b.position.x b.position.y)
              NAcc.init).cohx,
            (snapshot.foldl (parStep sepR2 aliR2 cohR2 b.position.x b.position.y)
              NAcc.init).cohy⟩,
           (snapshot.foldl (parStep sepR2 aliR2 cohR2 b.position.x b.position.y)
              NAcc.init).cohc)
          H := rfl

lemma serial_sum_eq (b : Bird) (birds : List Bird) (W H : ℝ) :
    (((b.separate birds).smul 1.5 + (b.align birds).smul 1.0)
        + (b.cohesion birds).smul 1.0) + (b.environmentalBias W H).smul 0.8
      = serCombine b (sepAcc b birds) (aliAcc b birds) (cohAcc b birds) W H := rfl

lemma pair_eq_of_components {v : Vector2D} {n : ℕ} {p : Vector2D × ℕ}
    (hx : v.x = p.1.x) (hy : v.y = p.1.y) (hn : n = p.2) : (v, n) = p := by
  obtain ⟨w, m⟩ := p
  simp only at hx hy hn
  have hv : v = w := Vector2D.ext hx hy
  rw [hv, hn]

/-- The parallel fold's three accumulator groups, bundled back into pairs,
are exactly the serial loops' accumulators. -/
lemma fold_rel_pairs (b : Bird)
    (hrs : 0 ≤ b.separationRadius) (hra : 0 ≤ b.alignmentRadius)
    (hrc : 0 ≤ b.cohesionRadius) (birds : List Bird) :
    ((⟨(birds.foldl (parStep (b.separationRadius * b.separationRadius)
          (b.alignmentRadius * b.alignmentRadius) (b.cohesionRadius * b.cohesionRadius)
          b.position.x b.position.y) NAcc.init).sepx,
       (birds.foldl (parStep (b.separationRadius * b.separationRadius)
          (b.alignmentRadius * b.alignmentRadius) (b.cohesionRadius * b.cohesionRadius)
          b.position.x b.position.y) NAcc.init).sepy⟩ : Vector2D),
      (birds.foldl (parStep (b.separationRadius * b.separationRadius)
          (b.alignmentRadius * b.alignmentRadius) (b.cohesionRadius * b.cohesionRadius)
          b.position.x b.position.y) NAcc.init).sepc) = sepAcc b birds
    ∧ ((⟨(birds.foldl (parStep (b.separationRadius * b.separationRadius)
          (b.alignmentRadius * b.alignmentRadius) (b.cohesionRadius * b.cohesionRadius)
          b.position.x b.position.y) NAcc.init).alix,
       (birds.foldl (parStep (b.separationRadius * b.separationRadius)
          (b.alignmentRadius * b.alignmentRadius) (b.cohesionRadius * b.cohesionRadius)
          b.position.x b.position.y) NAcc.init).aliy⟩ : Vector2D),
      (birds.foldl (parStep (b.separationRadius * b.separationRadius)
          (b.alignmentRadius * b.alignmentRadius) (b.cohesionRadius * b.cohesionRadius)
          b.position.x b.position.y) NAcc.init).alic) = aliAcc b birds
    ∧ ((⟨(birds.foldl (parStep (b.separationRadius * b.separationRadius)
          (b.alignmentRadius * b.alignmentRadius) (b.cohesionRadius * b.cohesionRadius)
          b.position.x b.position.y) NAcc.init).cohx,
       (birds.foldl (parStep (b.separationRadius * b.separationRadius)
          (b.alignmentRadius * b.alignmentRadius) (b.cohesionRadius * b.cohesionRadius)
          b.position.x b.position.y) NAcc.init).cohy⟩ : Vector2D),
      (birds.foldl (parStep (b.separationRadius * b.separationRadius)
          (b.alignmentRadius * b.alignmentRadius) (b.cohesionRadius * b.cohesionRadius)
          b.position.x b.position.y) NAcc.init).cohc) = cohAcc b birds := by
  obtain ⟨e1, e2, e3, e4, e5, e6, e7, e8, e9⟩ :=
    fold_rel b hrs hra hrc birds NAcc.init (0, 0) (0, 0) (0, 0)
      rfl rfl rfl rfl rfl rfl rfl rfl rfl
  exact ⟨pair_eq_of_components e1 e2 e3, pair_eq_of_components e4 e5 e6,
    pair_eq_of_components e7 e8 e9⟩

lemma sq_sum_pos_of_ne_zero (v : Vector2D) (h : v ≠ 0) :
    0 < v.x * v.x + v.y * v.y := by
  rcases lt_or_eq_of_le (sq_sum_nonneg v) with hlt | heq
  · exact hlt
  · exfalso
    apply h
    have h0 : v.x * v.x + v.y * v.y = 0 := heq.symm
    have hx : v.x = 0 := by nlinarith [mul_self_nonneg v.x, mul_self_nonneg v.y]
    have hy : v.y = 0 := by nlinarith [mul_self_nonneg v.x, mul_self_nonneg v.y]
    ext <;> simp [hx, hy]

lemma vec_eq_zero_of_sq_sum_nonpos (v : Vector2D)
    (h : ¬ 0 < v.x * v.x + v.y * v.y) : v = 0 := by
  have h0 : v.x * v.x + v.y * v.y = 0 := le_antisymm (not_lt.mp h) (sq_sum_nonneg v)
  have hx : v.x = 0 := by nlinarith [mul_self_nonneg v.x, mul_self_nonneg v.y]
  have hy : v.y = 0 := by nlinarith [mul_self_nonneg v.x, mul_self_nonneg v.y]
  ext <;> simp [hx, hy]

/-- The parallel combine phase agrees with the serial combine phase on the
same accumulators, given a non-negative force cap, provided that: an empty
separation accumulator carries a zero sum; a non-empty alignment accumulator
has a non-zero mean velocity; and a non-empty cohesion accumulator has a
mean position different from the bird's own.  (The last two are exactly the
degenerate inputs on which the serial `align`/`cohesion` — which lack the
zero-magnitude guard that `separate` and the parallel path have — diverge
from the parallel path.) -/
lemma combine_eq (b : Bird) (S AL C : Vector2D × ℕ) (W H : ℝ)
    (hmf : 0 ≤ b.maxForce)
    (hSzero : S.2 = 0 → S.1 = 0)
    (hALne : 0 < AL.2 → AL.1.sdiv (AL.2 : ℝ) ≠ 0)
    (hCne : 0 < C.2 → C.1.sdiv (C.2 : ℝ) ≠ b.position) :
    parCombine b S AL C H = serCombine b S AL C W H := by
  unfold parCombine serCombine
  dsimp only
  congr 1
  · congr 1
    · congr 1
      · -- separation part
        by_cases hn : 0 < S.2
        · rw [if_pos hn, if_pos hn]
          have hmag : (S.1.sdiv (S.2 : ℝ)).magnitude
              = Real.sqrt (S.1.x / (S.2:ℝ) * (S.1.x / (S.2:ℝ))
                + S.1.y / (S.2:ℝ) * (S.1.y / (S.2:ℝ))) := rfl
          by_cases hs2 : 0 < S.1.x / (S.2:ℝ) * (S.1.x / (S.2:ℝ))
              + S.1.y / (S.2:ℝ) * (S.1.y / (S.2:ℝ))
          · rw [if_pos hs2, if_pos (show 0 < (S.1.sdiv (S.2:ℝ)).magnitude by
              rw [hmag]; exact Real.sqrt_pos.mpr hs2)]
            have hvec : (((S.1.sdiv (S.2:ℝ)).normalize).smul b.maxSpeed) - b.velocity
                = (⟨S.1.x / (S.2:ℝ)
                    * (1 / Real.sqrt (S.1.x / (S.2:ℝ) * (S.1.x / (S.2:ℝ))
                        + S.1.y / (S.2:ℝ) * (S.1.y / (S.2:ℝ))))
                    * b.maxSpeed - b.velocity.x,
                   S.1.y / (S.2:ℝ)
                    * (1 / Real.sqrt (S.1.x / (S.2:ℝ) * (S.1.x / (S.2:ℝ))
                        + S.1.y / (S.2:ℝ) * (S.1.y / (S.2:ℝ))))
                    * b.maxSpeed - b.velocity.y⟩ : Vector2D) := by
              unfold Vector2D.normalize
              rw [hmag, if_pos (Real.sqrt_pos.mpr hs2)]
              ext <;> simp only [smul_x, smul_y, vsub_x, vsub_y, sdiv_x, sdiv_y] <;> ring
            rw [hvec, limit_eq_fastLimit _ _ hmf]
          · rw [if_neg hs2, if_neg (show ¬ 0 < (S.1.sdiv (S.2:ℝ)).magnitude by
              rw [hmag]; intro hq; exact hs2 (Real.sqrt_pos.mp hq))]
            have hzero : S.1.sdiv (S.2:ℝ) = 0 :=
              vec_eq_zero_of_sq_sum_nonpos (S.1.sdiv (S.2:ℝ)) hs2
            rw [hzero]
            ext <;> simp [Vector2D.smul]
        · rw [if_neg hn, if_neg hn]
          have h1 : S.1 = 0 := hSzero (by omega)
          rw [h1]
          ext <;> simp [Vector2D.smul]
      · -- alignment part
        by_cases hn : 0 < AL.2
        · rw [if_pos hn, if_pos hn]
          have hne := hALne hn
          have hs2 : 0 < AL.1.x / (AL.2:ℝ) * (AL.1.x / (AL.2:ℝ))
              + AL.1.y / (AL.2:ℝ) * (AL.1.y / (AL.2:ℝ)) :=
            sq_sum_pos_of_ne_zero (AL.1.sdiv (AL.2:ℝ)) hne
          rw [if_pos hs2]
          have hmag : (AL.1.sdiv (AL.2 : ℝ)).magnitude
              = Real.sqrt (AL.1.x / (AL.2:ℝ) * (AL.1.x / (AL.2:ℝ))
                + AL.1.y / (AL.2:ℝ) * (AL.1.y / (AL.2:ℝ))) := rfl
          have hvec : (((AL.1.sdiv (AL.2:ℝ)).normalize).smul b.maxSpeed) - b.velocity
              = (⟨AL.1.x / (AL.2:ℝ)
                  * (1 / Real.sqrt (AL.1.x / (AL.2:ℝ) * (AL.1.x / (AL.2:ℝ))
                      + AL.1.y / (AL.2:ℝ) * (AL.1.y / (AL.2:ℝ))))
                  * b.maxSpeed - b.velocity.x,
                 AL.1.y / (AL.2:ℝ)
                  * (1 / Real.sqrt (AL.1.x / (AL.2:ℝ) * (AL.1.x / (AL.2:ℝ))
                      + AL.1.y / (AL.2:ℝ) * (AL.1.y / (AL.2:ℝ))))
                  * b.maxSpeed - b.velocity.y⟩ : Vector2D) := by
            unfold Vector2D.normalize
            rw [hmag, if_pos (Real.sqrt_pos.mpr hs2)]
            ext <;> simp only [smul_x, smul_y, vsub_x, vsub_y, sdiv_x, sdiv_y] <;> ring
          rw [hvec, limit_eq_fastLimit _ _ hmf]
          ext <;> norm_num [Vector2D.smul]
        · rw [if_neg hn, if_neg hn]
          ext <;> norm_num [Vector2D.smul]
    · -- cohesion part
      by_cases hn : 0 < C.2
      · rw [if_pos hn, if_pos hn]
        have hne := hCne hn
        have hdne : C.1.sdiv (C.2:ℝ) - b.position ≠ 0 := by
          intro h0
          apply hne
          have hx := congrArg Vector2D.x h0
          have hy := congrArg Vector2D.y h0
          simp only [vsub_x, vsub_y, vzero_x, vzero_y, sub_eq_zero] at hx hy
          exact Vector2D.ext hx hy
        have hs2 : 0 < (C.1.x / (C.2:ℝ) - b.position.x) * (C.1.x / (C.2:ℝ) - b.position.x)
            + (C.1.y / (C.2:ℝ) - b.position.y) * (C.1.y / (C.2:ℝ) - b.position.y) :=
          sq_sum_pos_of_ne_zero (C.1.sdiv (C.2:ℝ) - b.position) hdne
        rw [if_pos hs2]
        unfold Bird.seek
        dsimp only
        have hmag : (C.1.sdiv (C.2:ℝ) - b.position).magnitude
            = Real.sqrt ((C.1.x / (C.2:ℝ) - b.position.x) * (C.1.x / (C.2:ℝ) - b.position.x)
              + (C.1.y / (C.2:ℝ) - b.position.y) * (C.1.y / (C.2:ℝ) - b.position.y)) := rfl
        have hvec : (((C.1.sdiv (C.2:ℝ) - b.position).normalize).smul b.maxSpeed) - b.velocity
            = (⟨(C.1.x / (C.2:ℝ) - b.position.x)
                * (1 / Real.sqrt ((C.1.x / (C.2:ℝ) - b.position.x) * (C.1.x / (C.2:ℝ) - b.position.x)
                    + (C.1.y / (C.2:ℝ) - b.position.y) * (C.1.y / (C.2:ℝ) - b.position.y)))
                * b.maxSpeed - b.velocity.x,
               (C.1.y / (C.2:ℝ) - b.position.y)
                * (1 / Real.sqrt ((C.1.x / (C.2:ℝ) - b.position.x) * (C.1.x / (C.2:ℝ) - b.position.x)
                    + (C.1.y / (C.2:ℝ) - b.position.y) * (C.1.y / (C.2:ℝ) - b.position.y)))
                * b.maxSpeed - b.velocity.y⟩ : Vector2D) := by
          unfold Vector2D.normalize
          rw [hmag, if_pos (Real.sqrt_pos.mpr hs2)]
          ext <;> simp only [smul_x, smul_y, vsub_x, vsub_y, sdiv_x, sdiv_y] <;> ring
        rw [hvec, limit_eq_fastLimit _ _ hmf]
        ext <;> norm_num [Vector2D.smul]
      · rw [if_neg hn, if_neg hn]
        ext <;> norm_num [Vector2D.smul]
  · -- environmental-bias part
    unfold Bird.environmentalBias
    dsimp only
    set Y := (if H * 0.3 < b.position.y
        then -((b.position.y - H * 0.3) / (H * 0.3)) * 0.8 else (0.15:ℝ)) with hY
    have hb2 : (0:ℝ) < 0.5 * 0.5 + Y * Y := by
      nlinarith [mul_self_nonneg Y]
    rw [if_pos hb2]
    have hmag : ((⟨0.5, Y⟩ : Vector2D)).magnitude = Real.sqrt (0.5 * 0.5 + Y * Y) := rfl
    have hvec : (((⟨0.5, Y⟩ : Vector2D).normalize).smul
          (b.maxSpeed * (0.3 + |b.position.y - H * 0.2| / (H * 0.5) * 0.5))) - b.velocity
        = (⟨0.5 * (1 / Real.sqrt (0.5 * 0.5 + Y * Y))
            * (b.maxSpeed * (0.3 + |b.position.y - H * 0.2| / (H * 0.5) * 0.5))
            - b.velocity.x,
           Y * (1 / Real.sqrt (0.5 * 0.5 + Y * Y))
            * (b.maxSpeed * (0.3 + |b.position.y - H * 0.2| / (H * 0.5) * 0.5))
            - b.velocity.y⟩ : Vector2D) := by
      unfold Vector2D.normalize
      rw [hmag, if_pos (Real.sqrt_pos.mpr hb2)]
      ext <;> simp only [smul_x, smul_y, vsub_x, vsub_y] <;> ring
    rw [hvec, limit_eq_fastLimit _ _ (show (0:ℝ) ≤ b.maxForce * 0.5 by nlinarith)]

/-- The acceleration the parallel kernel computes for a bird equals the sum
of the four weighted serial steering forces, when the shared squared radii
come from this bird's own (non-negative) radii and the two serial degenerate
cases are excluded. -/
lemma parAccel_eq (b : Bird) (birds : List Bird) (W H : ℝ)
    (hrs : 0 ≤ b.separationRadius) (hra : 0 ≤ b.alignmentRadius)
    (hrc : 0 ≤ b.cohesionRadius) (hmf : 0 ≤ b.maxForce)
    (hali : 0 < (aliAcc b birds).2 →
        (aliAcc b birds).1.sdiv (((aliAcc b birds).2 : ℕ) : ℝ) ≠ 0)
    (hcoh : 0 < (cohAcc b birds).2 →
        (cohAcc b birds).1.sdiv (((cohAcc b birds).2 : ℕ) : ℝ) ≠ b.position) :
    parAccel b birds (b.separationRadius * b.separationRadius)
        (b.alignmentRadius * b.alignmentRadius)
        (b.cohesionRadius * b.cohesionRadius) H
      = (((b.separate birds).smul 1.5 + (b.align birds).smul 1.0)
          + (b.cohesion birds).smul 1.0) + (b.environmentalBias W H).smul 0.8 := by
  obtain ⟨hp1, hp2, hp3⟩ := fold_rel_pairs b hrs hra hrc birds
  rw [parAccel_eq_parCombine, serial_sum_eq, hp1, hp2, hp3]
  exact combine_eq b _ _ _ W H hmf
    (fun h => by simpa using congrArg Prod.fst (sepAcc_of_count_zero b birds h))
    hali hcoh

/-- Two birds agree on the fields a neighbour scan reads. -/
def kin (a b : Bird) : Prop := a.position = b.position ∧ a.velocity = b.velocity

lemma foldl_congr_forall2 {α γ : Type} (R : α → α → Prop) (f : γ → α → γ)
    (hf : ∀ acc a a', R a a' → f acc a = f acc a') :
    ∀ {l l' : List α}, List.Forall₂ R l l' → ∀ acc, l.foldl f acc = l'.foldl f acc := by
  intro l l' h
  induction h with
  | nil => intro acc; rfl
  | cons hR hl ih =>
    intro acc
    rw [List.foldl_cons, List.foldl_cons, hf _ _ _ hR]
    exact ih _

lemma sepStep_kin (b : Bird) (acc : Vector2D × ℕ) {o o' : Bird} (h : kin o o') :
    sepStep b acc o = sepStep b acc o' := by
  unfold sepStep
  rw [h.1]

lemma aliStep_kin (b : Bird) (acc : Vector2D × ℕ) {o o' : Bird} (h : kin o o') :
    aliStep b acc o = aliStep b acc o' := by
  unfold aliStep
  rw [h.1, h.2]

lemma cohStep_kin (b : Bird) (acc : Vector2D × ℕ) {o o' : Bird} (h : kin o o') :
    cohStep b acc o = cohStep b acc o' := by
  unfold cohStep
  rw [h.1]

/-- A `flock` call only reads neighbours' positions and velocities, so any
kinematically equal neighbour list gives the same result. -/
lemma flock_kin_congr (b : Bird) {ns ns' : List Bird}
    (h : List.Forall₂ kin ns ns') (W H : ℝ) :
    b.flock ns W H = b.flock ns' W H := by
  unfold Bird.flock Bird.separate Bird.align Bird.cohesion sepAcc aliAcc cohAcc
  rw [foldl_congr_forall2 kin (sepStep b) (fun acc o o' hk => sepStep_kin b acc hk) h,
    foldl_congr_forall2 kin (aliStep b) (fun acc o o' hk => aliStep_kin b acc hk) h,
    foldl_congr_forall2 kin (cohStep b) (fun acc o o' hk => cohStep_kin b acc hk) h]

/-- `flock` writes only the acceleration. -/
lemma kin_flock (b : Bird) (ns : List Bird) (W H : ℝ) : kin (b.flock ns W H) b :=
  ⟨rfl, rfl⟩

lemma forall2_kin_refl (l : List Bird) : List.Forall₂ kin l l :=
  List.forall₂_same.mpr (fun _ _ => ⟨rfl, rfl⟩)

/-- The serial force pass: although bird `i` sees the accelerations already
written by birds `0..i-1`, `flock` never reads them, so the pass equals a
map over the original snapshot. -/
lemma seqFlock_eq_map (W H : ℝ) :
    ∀ (rest done done0 : List Bird), List.Forall₂ kin done done0 →
      seqFlock W H done rest
        = done ++ rest.map (fun b => b.flock (done0 ++ rest) W H) := by
  intro rest
  induction rest with
  | nil =>
    intro done done0 h
    unfold seqFlock
    simp
  | cons b rest' ih =>
    intro done done0 h
    unfold seqFlock
    rw [ih (done ++ [b.flock (done ++ b :: rest') W H]) (done0 ++ [b])
      (List.rel_append h
        (List.Forall₂.cons (kin_flock b (done ++ b :: rest') W H) List.Forall₂.nil))]
    have hf : b.flock (done ++ b :: rest') W H = b.flock (done0 ++ b :: rest') W H :=
      flock_kin_congr b (List.rel_append h (forall2_kin_refl (b :: rest'))) W H
    rw [hf]
    simp only [List.map_cons, List.append_assoc, List.singleton_append]

lemma updateSerial_eq_map (W H : ℝ) (birds : List Bird) :
    updateSerial W H birds
      = birds.map (fun b => ((b.flock birds W H).update).borders W H) := by
  unfold updateSerial
  rw [seqFlock_eq_map W H birds [] [] List.Forall₂.nil]
  simp only [List.nil_append]
  rw [List.map_map]
  rfl

/-! ## Claim C1: one parallel step vs one serial step -/

/-- **C1 (amended).** One step of `updateParallel()` produces exactly the
same list of birds as one step of `updateSerial()` — including the empty
flock, where both are no-ops — provided the radii are uniform across the
flock (the parallel kernel shares `birds[0]`'s squared radii), radii and
force caps are non-negative (the program's invariants), and no agent hits
either of the two serial degenerate cases the parallel path guards against:
alignment contributors with an exactly zero mean velocity, or cohesion
contributors whose mean position coincides with the agent's own position. -/
theorem c1_parallel_matches_serial (W H : ℝ) (birds : List Bird)
    (huni : ∀ a ∈ birds, ∀ c ∈ birds,
        a.separationRadius = c.separationRadius
        ∧ a.alignmentRadius = c.alignmentRadius
        ∧ a.cohesionRadius = c.cohesionRadius)
    (hrad : ∀ a ∈ birds,
        0 ≤ a.separationRadius ∧ 0 ≤ a.alignmentRadius ∧ 0 ≤ a.cohesionRadius)
    (hmf : ∀ a ∈ birds, 0 ≤ a.maxForce)
    (hali : ∀ a ∈ birds, 0 < (aliAcc a birds).2 →
        (aliAcc a birds).1.sdiv (((aliAcc a birds).2 : ℕ) : ℝ) ≠ 0)
    (hcoh : ∀ a ∈ birds, 0 < (cohAcc a birds).2 →
        (cohAcc a birds).1.sdiv (((cohAcc a birds).2 : ℕ) : ℝ) ≠ a.position) :
    updateParallel W H birds = updateSerial W H birds := by
  match birds, huni, hrad, hmf, hali, hcoh with
  | [], _, _, _, _, _ => rfl
  | b0 :: rest, huni, hrad, hmf, hali, hcoh =>
    rw [updateSerial_eq_map]
    unfold updateParallel
    dsimp only
    apply List.map_congr_left
    intro b hb
    have hmem0 : b0 ∈ b0 :: rest := by simp
    obtain ⟨hrs', hra', hrc'⟩ := huni b hb b0 hmem0
    rw [← hrs', ← hra', ← hrc']
    obtain ⟨h1, h2, h3⟩ := hrad b hb
    rw [parAccel_eq b (b0 :: rest) W H h1 h2 h3 (hmf b hb) (hali b hb) (hcoh b hb)]
    have hacc : b.acceleration
        + ((((b.separate (b0 :: rest)).smul 1.5 + (b.align (b0 :: rest)).smul 1.0)
            + (b.cohesion (b0 :: rest)).smul 1.0)
          + (b.environmentalBias W H).smul 0.8)
        = (((b.acceleration + (b.separate (b0 :: rest)).smul 1.5)
            + (b.align (b0 :: rest)).smul 1.0)
            + (b.cohesion (b0 :: rest)).smul 1.0)
          + (b.environmentalBias W H).smul 0.8 := by
      ext <;> simp only [vadd_x, vadd_y] <;> ring
    rw [hacc]
    rfl

/-- Witness for C1 on a concrete single-bird flock (every hypothesis holds:
radii are trivially uniform and non-negative, and both degenerate-case
exclusions are vacuous because the only candidate neighbour is the bird
itself at distance zero). -/
theorem c1_witness :
    updateParallel 640 480 [⟨⟨5, 5⟩, ⟨1, 0⟩, 0, 4, 2, 3/100, 25, 50, 50⟩]
      = updateSerial 640 480 [⟨⟨5, 5⟩, ⟨1, 0⟩, 0, 4, 2, 3/100, 25, 50, 50⟩] := by
  have hacc0 : ∀ (st : Vector2D × ℕ → Bird → Vector2D × ℕ),
      (∀ x, st x (⟨⟨5, 5⟩, ⟨1, 0⟩, 0, 4, 2, 3/100, 25, 50, 50⟩ : Bird) = x) →
      List.foldl st ((0 : Vector2D), (0 : ℕ))
        [(⟨⟨5, 5⟩, ⟨1, 0⟩, 0, 4, 2, 3/100, 25, 50, 50⟩ : Bird)] = (0, 0) := by
    intro st hst
    simp [hst]
  apply c1_parallel_matches_serial
  · intro a ha c hc
    simp only [List.mem_singleton] at ha hc
    subst ha; subst hc
    exact ⟨rfl, rfl, rfl⟩
  · intro a ha
    simp only [List.mem_singleton] at ha
    subst ha
    refine ⟨?_, ?_, ?_⟩ <;> norm_num
  · intro a ha
    simp only [List.mem_singleton] at ha
    subst ha
    norm_num
  · intro a ha
    simp only [List.mem_singleton] at ha
    subst ha
    intro hcount
    exfalso
    have hz : (aliAcc (⟨⟨5, 5⟩, ⟨1, 0⟩, 0, 4, 2, 3/100, 25, 50, 50⟩ : Bird)
        [⟨⟨5, 5⟩, ⟨1, 0⟩, 0, 4, 2, 3/100, 25, 50, 50⟩]).2 = 0 := by
      have := hacc0 (aliStep ⟨⟨5, 5⟩, ⟨1, 0⟩, 0, 4, 2, 3/100, 25, 50, 50⟩)
        (fun x => by
          unfold aliStep
          dsimp only
          rw [distance_self, if_neg (by norm_num)])
      unfold aliAcc
      rw [this]
    omega
  · intro a ha
    simp only [List.mem_singleton] at ha
    subst ha
    intro hcount
    exfalso
    have hz : (cohAcc (⟨⟨5, 5⟩, ⟨1, 0⟩, 0, 4, 2, 3/100, 25, 50, 50⟩ : Bird)
        [⟨⟨5, 5⟩, ⟨1, 0⟩, 0, 4, 2, 3/100, 25, 50, 50⟩]).2 = 0 := by
      have := hacc0 (cohStep ⟨⟨5, 5⟩, ⟨1, 0⟩, 0, 4, 2, 3/100, 25, 50, 50⟩)
        (fun x => by
          unfold cohStep
          dsimp only
          rw [distance_self, if_neg (by norm_num)])
      unfold cohAcc
      rw [this]
    omega

lemma borders_velocity (b : Bird) (w h : ℝ) : (b.borders w h).velocity = b.velocity := rfl

/-- A three-bird flock exhibiting the serial/parallel divergence: bird 0 has
two alignment neighbours whose velocities cancel exactly.  Radii are uniform
(`separation = cohesion = 0`, `alignment = 100`), caps positive. -/
def cexB0 : Bird := ⟨⟨0, 0⟩, ⟨1, 0⟩, 0, 1, 100, 10, 0, 100, 0⟩

/-- Second bird of the divergence flock (velocity `(0, 1)`). -/
def cexB1 : Bird := ⟨⟨3, 4⟩, ⟨0, 1⟩, 0, 1, 100, 10, 0, 100, 0⟩

/-- Third bird of the divergence flock (velocity `(0, -1)`). -/
def cexB2 : Bird := ⟨⟨-3, 4⟩, ⟨0, -1⟩, 0, 1, 100, 10, 0, 100, 0⟩

/-- The divergence flock. -/
def cexFlock : List Bird := [cexB0, cexB1, cexB2]

lemma cex_dist1 : Vector2D.distance cexB0.position cexB1.position = 5 := by
  show (cexB0.position - cexB1.position).magnitude = 5
  have hd : cexB0.position - cexB1.position = ⟨-3, -4⟩ := by
    unfold cexB0 cexB1
    ext <;> norm_num
  rw [hd]
  unfold Vector2D.magnitude
  rw [show ((-3:ℝ) * -3 + (-4) * -4 : ℝ) = 25 by norm_num]
  exact sqrt_twentyfive

lemma cex_dist2 : Vector2D.distance cexB0.position cexB2.position = 5 := by
  show (cexB0.position - cexB2.position).magnitude = 5
  have hd : cexB0.position - cexB2.position = ⟨3, -4⟩ := by
    unfold cexB0 cexB2
    ext <;> norm_num
  rw [hd]
  unfold Vector2D.magnitude
  rw [show ((3:ℝ) * 3 + (-4) * -4 : ℝ) = 25 by norm_num]
  exact sqrt_twentyfive

/-- All separation contributions of bird 0 vanish (radius `0`). -/
lemma cex_sepAcc : sepAcc cexB0 cexFlock = (0, 0) := by
  apply foldl_congr_id
  intro o ho x
  unfold sepStep
  dsimp only
  rw [if_neg]
  intro hcond
  have h2 := hcond.2
  rw [show cexB0.separationRadius = (0:ℝ) from rfl] at h2
  have hnn : 0 ≤ Vector2D.distance cexB0.position o.position :=
    magnitude_nonneg (cexB0.position - o.position)
  linarith

/-- All cohesion contributions of bird 0 vanish (radius `0`). -/
lemma cex_cohAcc : cohAcc cexB0 cexFlock = (0, 0) := by
  apply foldl_congr_id
  intro o ho x
  unfold cohStep
  dsimp only
  rw [if_neg]
  intro hcond
  have h2 := hcond.2
  rw [show cexB0.cohesionRadius = (0:ℝ) from rfl] at h2
  have hnn : 0 ≤ Vector2D.distance cexB0.position o.position :=
    magnitude_nonneg (cexB0.position - o.position)
  linarith

/-- Bird 0's alignment accumulator: two contributors with cancelling
velocities — sum exactly zero, count `2`. -/
lemma cex_aliAcc : aliAcc cexB0 cexFlock = (⟨0, 0⟩, 2) := by
  show List.foldl (aliStep cexB0) (0, 0) [cexB0, cexB1, cexB2] = (⟨0, 0⟩, 2)
  rw [List.foldl_cons, List.foldl_cons, List.foldl_cons, List.foldl_nil]
  have h0 : aliStep cexB0 (0, 0) cexB0 = (0, 0) := by
    unfold aliStep
    dsimp only
    rw [distance_self, if_neg (by norm_num)]
  have h1 : aliStep cexB0 (0, 0) cexB1 = (⟨0, 1⟩, 1) := by
    unfold aliStep
    dsimp only
    rw [cex_dist1, if_pos (by
      constructor
      · norm_num
      · rw [show cexB0.alignmentRadius = (100:ℝ) from rfl]; norm_num)]
    have hv : (0 : Vector2D) + cexB1.velocity = ⟨0, 1⟩ := by
      unfold cexB1
      ext <;> norm_num
    rw [hv]
  have h2 : aliStep cexB0 (⟨0, 1⟩, 1) cexB2 = (⟨0, 0⟩, 2) := by
    unfold aliStep
    dsimp only
    rw [cex_dist2, if_pos (by
      constructor
      · norm_num
      · rw [show cexB0.alignmentRadius = (100:ℝ) from rfl]; norm_num)]
    have hv : (⟨0, 1⟩ : Vector2D) + cexB2.velocity = ⟨0, 0⟩ := by
      unfold cexB2
      ext <;> norm_num
    rw [hv]
  rw [h0, h1, h2]

/-- The serial `separate` of bird 0 is zero. -/
lemma cex_separate : cexB0.separate cexFlock = 0 := by
  unfold Bird.separate
  rw [cex_sepAcc]
  norm_num

/-- The serial `cohesion` of bird 0 is zero. -/
lemma cex_cohesion : cexB0.cohesion cexFlock = 0 := by
  unfold Bird.cohesion
  rw [cex_cohAcc]
  norm_num

/-- The serial `align` of bird 0: the zero mean slips past the missing
guard and yields `limit(0 - velocity) = (-1, 0)`. -/
lemma cex_align : cexB0.align cexFlock = ⟨-1, 0⟩ := by
  unfold Bird.align
  rw [cex_aliAcc]
  dsimp only
  rw [if_pos (by norm_num)]
  have h1 : (⟨0, 0⟩ : Vector2D).sdiv ((2 : ℕ) : ℝ) = 0 := by
    ext <;> simp [Vector2D.sdiv]
  rw [h1, normalize_zero]
  have h2 : (0 : Vector2D).smul cexB0.maxSpeed = 0 := by
    ext <;> simp [Vector2D.smul]
  rw [h2]
  have h3 : (0 : Vector2D) - cexB0.velocity = ⟨-1, 0⟩ := by
    unfold cexB0
    ext <;> norm_num
  rw [h3]
  apply limit_noop
  have hm : (⟨-1, 0⟩ : Vector2D).magnitude = 1 := by
    unfold Vector2D.magnitude
    rw [show ((-1:ℝ) * -1 + 0 * 0 : ℝ) = 1 by norm_num]
    exact Real.sqrt_one
  rw [hm, show cexB0.maxForce = (10:ℝ) from rfl]
  norm_num

/-- The environmental bias of bird 0 is magnitude-bounded by
`maxForce * 0.5 = 5`. -/
lemma cex_bias_bound : (cexB0.environmentalBias 10 10).magnitude ≤ 5 := by
  unfold Bird.environmentalBias
  dsimp only
  rw [show cexB0.maxForce * 0.5 = (5:ℝ) by
    rw [show cexB0.maxForce = (10:ℝ) from rfl]; norm_num]
  exact magnitude_limit_le _ _ (by norm_num)

/-- The serial head bird's post-step velocity: the spurious `(-1, 0)`
alignment force exactly cancels the initial velocity `(1, 0)`. -/
lemma cex_serial_velocity :
    (((cexB0.flock cexFlock 10 10).update).borders 10 10).velocity
      = (cexB0.environmentalBias 10 10).smul 0.8 := by
  rw [borders_velocity]
  unfold Bird.update
  dsimp only
  unfold Bird.flock
  dsimp only
  rw [cex_separate, cex_align, cex_cohesion]
  have hv : cexB0.velocity
      + ((((cexB0.acceleration + (0 : Vector2D).smul 1.5) + (⟨-1, 0⟩ : Vector2D).smul 1.0)
          + (0 : Vector2D).smul 1.0) + (cexB0.environmentalBias 10 10).smul 0.8)
      = (cexB0.environmentalBias 10 10).smul 0.8 := by
    rw [show cexB0.velocity = (⟨1, 0⟩ : Vector2D) from rfl,
      show cexB0.acceleration = (0 : Vector2D) from rfl]
    ext <;> simp only [vadd_x, vadd_y, smul_x, smul_y, vzero_x, vzero_y] <;> norm_num
  rw [hv]
  apply limit_noop
  rw [magnitude_smul, show cexB0.maxSpeed = (100:ℝ) from rfl,
    abs_of_nonneg (by norm_num : (0:ℝ) ≤ 0.8)]
  nlinarith [cex_bias_bound, magnitude_nonneg (cexB0.environmentalBias 10 10)]

/-- An alignment accumulator with a zero sum contributes nothing in the
parallel combine phase, exactly as an empty one. -/
lemma cex_parCombine_ali :
    parCombine cexB0 (0, 0) (⟨0, 0⟩, 2) (0, 0) 10
      = parCombine cexB0 (0, 0) (0, 0) (0, 0) 10 := by
  unfold parCombine
  dsimp only
  congr 1
  congr 1
  congr 1
  rw [if_pos (by norm_num : (0:ℕ) < 2), if_neg (by norm_num : ¬ (0:ℕ) < 0)]
  rw [if_neg (by norm_num)]

lemma cex_serCombine_zero :
    serCombine cexB0 (0, 0) (0, 0) (0, 0) 10 10
      = (cexB0.environmentalBias 10 10).smul 0.8 := by
  unfold serCombine
  dsimp only
  rw [if_neg (by norm_num : ¬ (0:ℕ) < 0), if_neg (by norm_num : ¬ (0:ℕ) < 0),
    if_neg (by norm_num : ¬ (0:ℕ) < 0)]
  ext <;> simp only [vadd_x, vadd_y, smul_x, smul_y, vzero_x, vzero_y] <;> ring

/-- The parallel kernel's acceleration for bird 0 is the bias force alone:
the zero-mean alignment case is guarded away. -/
lemma cex_parAccel :
    parAccel cexB0 cexFlock (cexB0.separationRadius * cexB0.separationRadius)
        (cexB0.alignmentRadius * cexB0.alignmentRadius)
        (cexB0.cohesionRadius * cexB0.cohesionRadius) 10
      = (cexB0.environmentalBias 10 10).smul 0.8 := by
  obtain ⟨hp1, hp2, hp3⟩ := fold_rel_pairs cexB0
    (le_refl (0:ℝ)) (by norm_num : (0:ℝ) ≤ (100:ℝ)) (le_refl (0:ℝ)) cexFlock
  rw [parAccel_eq_parCombine, hp1, hp2, hp3, cex_sepAcc, cex_aliAcc, cex_cohAcc,
    cex_parCombine_ali,
    combine_eq cexB0 (0, 0) (0, 0) (0, 0) 10 10
      (by rw [show cexB0.maxForce = (10:ℝ) from rfl]; norm_num)
      (fun _ => rfl)
      (fun h => absurd h (by norm_num))
      (fun h => absurd h (by norm_num)),
    cex_serCombine_zero]

/-- Bird 0 with the parallel kernel's acceleration applied, as
`updateParallel`'s integration loop constructs it. -/
def cexParBird : Bird :=
  { cexB0 with
      acceleration := cexB0.acceleration
        + parAccel cexB0 cexFlock (cexB0.separationRadius * cexB0.separationRadius)
            (cexB0.alignmentRadius * cexB0.alignmentRadius)
            (cexB0.cohesionRadius * cexB0.cohesionRadius) 10 }

/-- The parallel head bird's post-step velocity keeps its `(1, 0)` start:
only the bias force acts. -/
lemma cex_parallel_velocity :
    (((cexParBird.update).borders 10 10).velocity)
      = cexB0.velocity + (cexB0.environmentalBias 10 10).smul 0.8 := by
  rw [borders_velocity]
  unfold cexParBird
  unfold Bird.update
  dsimp only
  rw [cex_parAccel]
  have hacc : cexB0.acceleration + (cexB0.environmentalBias 10 10).smul 0.8
      = (cexB0.environmentalBias 10 10).smul 0.8 := by
    rw [show cexB0.acceleration = (0 : Vector2D) from rfl]
    ext <;> simp
  rw [hacc]
  apply limit_noop
  apply le_trans (magnitude_add_le _ _)
  have hv1 : cexB0.velocity.magnitude = 1 := by
    rw [show cexB0.velocity = (⟨1, 0⟩ : Vector2D) from rfl]
    unfold Vector2D.magnitude
    rw [show ((1:ℝ) * 1 + 0 * 0 : ℝ) = 1 by norm_num]
    exact Real.sqrt_one
  rw [hv1, magnitude_smul, show cexB0.maxSpeed = (100:ℝ) from rfl,
    abs_of_nonneg (by norm_num : (0:ℝ) ≤ 0.8)]
  nlinarith [cex_bias_bound, magnitude_nonneg (cexB0.environmentalBias 10 10)]

/-- **C1 (counterexample).** On the concrete three-bird flock `cexFlock`
(uniform radii, positive caps) one step of `updateParallel` and one step of
`updateSerial` give the head bird velocities whose `x`-components differ by
exactly `1` — far beyond any small numeric tolerance — because the two
alignment neighbours' velocities cancel exactly, a case the serial `align`
turns into a spurious steering force and the parallel kernel discards. -/
theorem c1_counterexample :
    ((updateParallel 10 10 cexFlock).headI.velocity).x
      - ((updateSerial 10 10 cexFlock).headI.velocity).x = 1 := by
  have hpar : (updateParallel 10 10 cexFlock).headI
      = (cexParBird.update).borders 10 10 := rfl
  have hser : (updateSerial 10 10 cexFlock).headI
      = ((cexB0.flock cexFlock 10 10).update).borders 10 10 := by
    rw [updateSerial_eq_map]
    rfl
  rw [hpar, hser, cex_parallel_velocity, cex_serial_velocity]
  simp only [vadd_x, smul_x]
  rw [show cexB0.velocity.x = (1:ℝ) from rfl]
  ring

end

end Flocking
